import Mathlib

/-!
# Verification of the n4n5 CLI configuration store and its clients

Shallow embedding of the parts of the `n4n5` crate that the specification
talks about: the TOML-backed configuration store (`src/config.rs`), the
get-or-prompt accessor pattern (`src/macros.rs`), the interactive
path-input loop (`src/utils.rs`), the movie statistics
(`src/commands/movies.rs`), the GitHub project merge
(`src/commands/gh/lib.rs`) and the aggregate sync command
(`src/commands/sync.rs`).

Rust `f64` movie ratings are modelled as `ℚ` (all values involved are
exact small decimals), `u64` dates as `ℕ`, paths as `String`.
Fallible operations return `Except`/`Option`; panics are modelled as
`Option.none`.
-/

namespace N4n5

/-- Movie record, from `OneMovie` in `src/commands/movies.rs`
(`title`, `note : f64`, `date : u64`, `comment`, `seen`, `summary`). -/
structure OneMovie where
  title : String
  note : ℚ
  date : ℕ
  comment : String
  seen : Option String
  summary : Option String
deriving DecidableEq, Repr

/-- `AllMovies` wrapper from `src/commands/movies.rs`. -/
structure AllMovies where
  movies : List OneMovie
deriving DecidableEq, Repr

namespace Movies

/-- `Movies::get_stats` from `src/commands/movies.rs` (lines 305-319):
min/max over the `date` field with `unwrap_or(0)`, mean of the notes,
and the median taken at index `len / 2` of the list of notes sorted with
`partial_cmp`.  The Rust indexing `notes[notes.len() / 2]` panics when out
of bounds; the panic is modelled by returning `none`. -/
def get_stats (ms : AllMovies) : Option (ℕ × ℕ × ℚ × ℚ) :=
  let min_date : ℕ := ((ms.movies.map (·.date)).min?).getD 0
  let max_date : ℕ := ((ms.movies.map (·.date)).max?).getD 0
  let avg_note : ℚ := (ms.movies.map (·.note)).sum / (ms.movies.length : ℚ)
  let notes : List ℚ := (ms.movies.map (·.note)).mergeSort (fun a b => a ≤ b)
  match notes[notes.length / 2]? with
  | some median_note => some (min_date, max_date, avg_note, median_note)
  | none => none

end Movies

/-! ## Configuration data model (src/config.rs and the section structs) -/

/-- `Movies` configuration section from `src/commands/movies.rs`
(`file_path`, `public_file_path`, both optional). -/
structure Movies where
  file_path : Option String
  public_file_path : Option String
deriving DecidableEq, Repr, Inhabited

/-- `ProgramsConfig` nested section from `src/commands/sync.rs`. -/
structure ProgramsConfig where
  cargo_programs : Option String
  vscode_extensions : Option String
  nix : Option String
deriving DecidableEq, Repr, Inhabited

/-- `SyncCliCommand` configuration section from `src/commands/sync.rs`:
`file_paths` is a plain `Vec<String>` (not optional), the other two fields
are optional. -/
structure SyncCliCommand where
  file_paths : List String
  save_folder_path : Option String
  programs : Option ProgramsConfig
deriving DecidableEq, Repr, Inhabited

/-- `Gh` configuration section from `src/commands/gh/lib.rs`. -/
structure Gh where
  username : Option String
  file_pulls : Option String
  file_projects : Option String
deriving DecidableEq, Repr, Inhabited

/-- `MusicCliCommand` configuration section from `src/commands/music.rs`. -/
structure MusicCliCommand where
  music_file : Option String
  env_path : Option String
deriving DecidableEq, Repr, Inhabited

/-- `ConfigData` from `src/config.rs`: the root record persisted as TOML;
every section is optional.  The derived `Inhabited.default` (all `none`,
empty vector) coincides with Rust's `ConfigData::default()`. -/
structure ConfigData where
  movies : Option Movies
  sync : Option SyncCliCommand
  gh : Option Gh
  music : Option MusicCliCommand
deriving DecidableEq, Repr, Inhabited

/-- `Config` from `src/config.rs`: the in-memory configuration object
(`debug : u8`, `use_input : bool`, the config file path and the data). -/
structure Config where
  debug : ℕ
  use_input : Bool
  config_path : String
  config_data : ConfigData
deriving DecidableEq, Repr

/-! ## Model of the `toml` crate on the `ConfigData` shape

The crate serializes `ConfigData` section by section in field order, each
optional `None` field skipped, strings as TOML basic strings and
`file_paths` as an array of strings; the nested `programs` record becomes
a `[sync.programs]` sub-table emitted after the scalar keys of `[sync]`.
Parsing is modelled for the same fragment (table headers, bare keys,
basic-string and string-array values), with serde's behaviour of ignoring
unknown keys and rejecting a `[sync]` table that lacks the mandatory
`file_paths` field. -/

/-- TOML values occurring in the `ConfigData` fragment. -/
inductive TomlValue where
  | str (s : String)
  | arr (elems : List String)
deriving DecidableEq, Repr

/-- Hexadecimal digit character (uppercase) for `\uXXXX` escapes. -/
def hexDigitChar (n : ℕ) : Char :=
  if n < 10 then Char.ofNat (48 + n) else Char.ofNat (55 + n)

/-- Four-digit hexadecimal rendering of a code point below `0x10000`. -/
def hex4 (n : ℕ) : List Char :=
  [hexDigitChar (n / 4096 % 16), hexDigitChar (n / 256 % 16),
   hexDigitChar (n / 16 % 16), hexDigitChar (n % 16)]

/-- Escaping of a single character inside a TOML basic string. -/
def escChar (c : Char) : List Char :=
  if c = '\"' then ['\\', '\"']
  else if c = '\\' then ['\\', '\\']
  else if c = '\n' then ['\\', 'n']
  else if c = '\t' then ['\\', 't']
  else if c = '\r' then ['\\', 'r']
  else if c = Char.ofNat 8 then ['\\', 'b']
  else if c = Char.ofNat 12 then ['\\', 'f']
  else if c.toNat < 32 ∨ c.toNat = 127 then '\\' :: 'u' :: hex4 c.toNat
  else [c]

/-- Escaping of a whole string body. -/
def escapeStr (s : List Char) : List Char := s.flatMap escChar

/-- Rendering of a TOML basic string literal, quotes included. -/
def renderStrLit (s : String) : List Char :=
  '\"' :: (escapeStr s.data ++ ['\"'])

/-- Rendering of the comma-separated element list of a string array. -/
def renderArrInner : List String → List Char
  | [] => []
  | [x] => renderStrLit x
  | x :: xs => renderStrLit x ++ ',' :: ' ' :: renderArrInner xs

/-- Rendering of a TOML value. -/
def renderValue : TomlValue → List Char
  | .str s => renderStrLit s
  | .arr xs => '[' :: (renderArrInner xs ++ [']'])

/-- One `key = value` line. -/
def renderKV (key : String) (v : TomlValue) : List Char :=
  key.data ++ ' ' :: '=' :: ' ' :: renderValue v

/-- One `[name]` table-header line. -/
def renderHeader (name : String) : List Char :=
  '[' :: (name.data ++ [']'])

/-- The `key = value` line of an optional string field, absent fields
skipped (serde skips `None`). -/
def optKV (key : String) : Option String → List (List Char)
  | none => []
  | some s => [renderKV key (.str s)]

/-- Lines emitted for the `movies` section. -/
def moviesLines : Option Movies → List (List Char)
  | none => []
  | some m =>
    renderHeader "movies" ::
      (optKV "file_path" m.file_path ++ optKV "public_file_path" m.public_file_path)

/-- Lines emitted for the nested `sync.programs` sub-table. -/
def programsLines : Option ProgramsConfig → List (List Char)
  | none => []
  | some p =>
    renderHeader "sync.programs" ::
      (optKV "cargo_programs" p.cargo_programs ++
        optKV "vscode_extensions" p.vscode_extensions ++ optKV "nix" p.nix)

/-- Lines emitted for the `sync` section; `file_paths` is always emitted
(it is not optional in the Rust struct). -/
def syncLines : Option SyncCliCommand → List (List Char)
  | none => []
  | some s =>
    renderHeader "sync" :: renderKV "file_paths" (.arr s.file_paths) ::
      (optKV "save_folder_path" s.save_folder_path ++ programsLines s.programs)

/-- Lines emitted for the `gh` section. -/
def ghLines : Option Gh → List (List Char)
  | none => []
  | some g =>
    renderHeader "gh" ::
      (optKV "username" g.username ++ optKV "file_pulls" g.file_pulls ++
        optKV "file_projects" g.file_projects)

/-- Lines emitted for the `music` section. -/
def musicLines : Option MusicCliCommand → List (List Char)
  | none => []
  | some m =>
    renderHeader "music" ::
      (optKV "music_file" m.music_file ++ optKV "env_path" m.env_path)

/-- All lines of the serialized configuration, sections in the field
order of `ConfigData`. -/
def configLines (cd : ConfigData) : List (List Char) :=
  moviesLines cd.movies ++ syncLines cd.sync ++ ghLines cd.gh ++ musicLines cd.music

/-- Model of `toml::to_string` applied to `ConfigData`
(used by `Config::save`, src/config.rs line 83). -/
def toml_to_string (cd : ConfigData) : String :=
  ⟨List.intercalate ['\n'] (configLines cd)⟩

/-- Numeric value of a hexadecimal digit character. -/
def hexVal (c : Char) : Option ℕ :=
  if 48 ≤ c.toNat ∧ c.toNat ≤ 57 then some (c.toNat - 48)
  else if 65 ≤ c.toNat ∧ c.toNat ≤ 70 then some (c.toNat - 55)
  else if 97 ≤ c.toNat ∧ c.toNat ≤ 102 then some (c.toNat - 87)
  else none

/-- Decoding of a single-character escape code. -/
def unescCode (e : Char) : Option Char :=
  if e = 'n' then some '\n'
  else if e = 't' then some '\t'
  else if e = 'r' then some '\r'
  else if e = 'b' then some (Char.ofNat 8)
  else if e = 'f' then some (Char.ofNat 12)
  else if e = '\\' then some '\\'
  else if e = '\"' then some '\"'
  else none

/-- Decoding of the four hexadecimal digits of a `\uXXXX` escape. -/
def hex4Dec (r : List Char) : Option ℕ :=
  match r with
  | h1 :: h2 :: h3 :: h4 :: _ =>
    (hexVal h1).bind fun a => (hexVal h2).bind fun b =>
      (hexVal h3).bind fun c => (hexVal h4).map fun d =>
        4096 * a + 256 * b + 16 * c + d
  | _ => none

/-- Scanner for the body of a TOML basic string: consumes up to and
including the closing quote, undoing the escapes; returns the decoded
body and the input remaining after the quote.  Fuel-driven: one unit of
fuel per decoded character, so any `fuel ≥ length + 1` behaves like the
untruncated scanner. -/
def scanStrLit : ℕ → List Char → Option (List Char × List Char)
  | 0, _ => none
  | _ + 1, [] => none
  | fuel + 1, c :: rest =>
    if c = '\"' then some ([], rest)
    else if c = '\\' then
      if rest = [] then none
      else
        let e := rest.headD ' '
        let r := rest.tail
        (unescCode e).elim
          (if e = 'u' then
            (hex4Dec r).elim none (fun n =>
              (scanStrLit fuel (r.drop 4)).map
                (fun p => (Char.ofNat n :: p.1, p.2)))
          else none)
          (fun d => (scanStrLit fuel r).map (fun p => (d :: p.1, p.2)))
    else (scanStrLit fuel rest).map (fun p => (c :: p.1, p.2))

/-- Drop leading spaces. -/
def skipSpaces (l : List Char) : List Char := l.dropWhile (· = ' ')

/-- Scanner for the elements of a string array, positioned right after the
opening `[` or after a comma; fuel-driven (one unit per element). -/
def scanArrElems : ℕ → List Char → Option (List String × List Char)
  | 0, _ => none
  | fuel + 1, l =>
    let l1 := skipSpaces l
    if l1.headD ' ' = ']' then some ([], l1.tail)
    else if l1.headD ' ' = '\"' then
      (scanStrLit (l1.tail.length + 1) l1.tail).elim none (fun p =>
        let r1 := skipSpaces p.2
        if r1.headD ' ' = ',' then
          (scanArrElems fuel r1.tail).elim none
            (fun q => some (⟨p.1⟩ :: q.1, q.2))
        else if r1.headD ' ' = ']' then some ([⟨p.1⟩], r1.tail)
        else none)
    else none

/-- Scanner for a whole value occupying the rest of a line. -/
def scanValue (l : List Char) : Option TomlValue :=
  if l.headD ' ' = '\"' then
    (scanStrLit l.length l.tail).elim none (fun p =>
      if skipSpaces p.2 = [] then some (.str ⟨p.1⟩) else none)
  else if l.headD ' ' = '[' then
    (scanArrElems l.length l.tail).elim none (fun p =>
      if skipSpaces p.2 = [] then some (.arr p.1) else none)
  else none

/-- One syntactic line of the TOML fragment. -/
inductive ParsedLine where
  | blank
  | header (name : String)
  | kv (key : String) (v : TomlValue)
deriving DecidableEq, Repr

/-- Characters allowed in a bare TOML key (dots cover dotted table
names inside headers as well). -/
def isBareKeyChar (c : Char) : Bool :=
  c.isAlphanum || c = '_' || c = '-' || c = '.'

/-- Line-level parsing of the TOML fragment: blank line, `[table]`
header, or `key = value`. -/
def parseLine (l : List Char) : Except String ParsedLine :=
  if l = [] then .ok .blank
  else if l.headD ' ' = '[' then
    let r := l.tail
    let after := r.dropWhile (fun c => !(c = ']'))
    if after.headD ' ' = ']' then
      if skipSpaces after.tail = [] then
        .ok (.header ⟨r.takeWhile (fun c => !(c = ']'))⟩)
      else .error "characters after table header"
    else .error "unterminated table header"
  else
    let key := l.takeWhile isBareKeyChar
    if key = [] then .error "expected a key"
    else
      let r1 := skipSpaces (l.dropWhile isBareKeyChar)
      if r1.headD ' ' = '=' then
        (scanValue (skipSpaces r1.tail)).elim
          (.error "unsupported or malformed value")
          (fun v => .ok (.kv ⟨key⟩ v))
      else .error "expected an equals sign"

/-- Partially-deserialized `sync` section: serde only reports the missing
mandatory `file_paths` field after the whole document is read. -/
structure RawSync where
  file_paths : Option (List String)
  save_folder_path : Option String
  programs : Option ProgramsConfig
deriving DecidableEq, Repr, Inhabited

/-- Partially-deserialized document. -/
structure RawConfig where
  movies : Option Movies
  sync : Option RawSync
  gh : Option Gh
  music : Option MusicCliCommand
deriving DecidableEq, Repr, Inhabited

/-- Effect of a `[name]` table header: the known tables (and the implicit
`sync` super-table of `[sync.programs]`) are created if absent; unknown
tables are ignored, as serde ignores unknown fields. -/
def applyHeader (name : String) (rc : RawConfig) : RawConfig :=
  if name = "movies" then { rc with movies := some (rc.movies.getD default) }
  else if name = "sync" then { rc with sync := some (rc.sync.getD default) }
  else if name = "sync.programs" then
    let s := rc.sync.getD default
    { rc with sync := some { s with programs := some (s.programs.getD default) } }
  else if name = "gh" then { rc with gh := some (rc.gh.getD default) }
  else if name = "music" then { rc with music := some (rc.music.getD default) }
  else rc

/-- Effect of a `key = value` line under the current table: known keys
require the right value type, unknown keys are ignored. -/
def applyKV (sec : Option String) (key : String) (v : TomlValue) (rc : RawConfig) :
    Except String RawConfig :=
  match sec with
  | none =>
    if key = "movies" ∨ key = "sync" ∨ key = "gh" ∨ key = "music" then
      .error "invalid type for a table field"
    else .ok rc
  | some sec =>
    if sec = "movies" then
      let m := rc.movies.getD default
      if key = "file_path" then
        match v with
        | .str s => .ok { rc with movies := some { m with file_path := some s } }
        | .arr _ => .error "invalid type: expected a string"
      else if key = "public_file_path" then
        match v with
        | .str s => .ok { rc with movies := some { m with public_file_path := some s } }
        | .arr _ => .error "invalid type: expected a string"
      else .ok rc
    else if sec = "sync" then
      let s := rc.sync.getD default
      if key = "file_paths" then
        match v with
        | .arr es => .ok { rc with sync := some { s with file_paths := some es } }
        | .str _ => .error "invalid type: expected a sequence"
      else if key = "save_folder_path" then
        match v with
        | .str str => .ok { rc with sync := some { s with save_folder_path := some str } }
        | .arr _ => .error "invalid type: expected a string"
      else if key = "programs" then .error "invalid type for a table field"
      else .ok rc
    else if sec = "sync.programs" then
      let s := rc.sync.getD default
      let p := s.programs.getD default
      match v with
      | .arr _ => if key = "cargo_programs" ∨ key = "vscode_extensions" ∨ key = "nix"
          then .error "invalid type: expected a string" else .ok rc
      | .str str =>
        if key = "cargo_programs" then
          .ok { rc with sync := some { s with programs := some { p with cargo_programs := some str } } }
        else if key = "vscode_extensions" then
          .ok { rc with sync := some { s with programs := some { p with vscode_extensions := some str } } }
        else if key = "nix" then
          .ok { rc with sync := some { s with programs := some { p with nix := some str } } }
        else .ok rc
    else if sec = "gh" then
      let g := rc.gh.getD default
      match v with
      | .arr _ => if key = "username" ∨ key = "file_pulls" ∨ key = "file_projects"
          then .error "invalid type: expected a string" else .ok rc
      | .str str =>
        if key = "username" then .ok { rc with gh := some { g with username := some str } }
        else if key = "file_pulls" then .ok { rc with gh := some { g with file_pulls := some str } }
        else if key = "file_projects" then .ok { rc with gh := some { g with file_projects := some str } }
        else .ok rc
    else if sec = "music" then
      let m := rc.music.getD default
      match v with
      | .arr _ => if key = "music_file" ∨ key = "env_path"
          then .error "invalid type: expected a string" else .ok rc
      | .str str =>
        if key = "music_file" then .ok { rc with music := some { m with music_file := some str } }
        else if key = "env_path" then .ok { rc with music := some { m with env_path := some str } }
        else .ok rc
    else .ok rc

/-- Effect of one parsed line on the traversal state. -/
def stepLine (pl : ParsedLine) (sec : Option String) (rc : RawConfig) :
    Except String (Option String × RawConfig) :=
  match pl with
  | .blank => .ok (sec, rc)
  | .header name => .ok (some name, applyHeader name rc)
  | .kv key v => (applyKV sec key v rc).map (fun rc2 => (sec, rc2))

/-- Document traversal: processes the lines in order, tracking the current
table; returns the final table context and partial document. -/
def processLines : List (List Char) → Option String → RawConfig →
    Except String (Option String × RawConfig)
  | [], sec, rc => .ok (sec, rc)
  | l :: ls, sec, rc =>
    ((parseLine l).bind (fun pl => stepLine pl sec rc)).bind
      (fun st => processLines ls st.1 st.2)

/-- Final deserialization step: a present `sync` table must have supplied
the mandatory `file_paths` field. -/
def finalize (rc : RawConfig) : Except String ConfigData :=
  match rc.sync with
  | none => .ok ⟨rc.movies, none, rc.gh, rc.music⟩
  | some rs =>
    match rs.file_paths with
    | none => .error "missing field file_paths in table sync"
    | some fps =>
      .ok ⟨rc.movies, some ⟨fps, rs.save_folder_path, rs.programs⟩, rc.gh, rc.music⟩

/-- Model of `toml::from_str::<ConfigData>` on the fragment at hand
(used by `Config::parse_config`, src/config.rs line 58). -/
def toml_from_str (s : String) : Except String ConfigData :=
  match processLines (s.data.splitOn '\n') none ⟨none, none, none, none⟩ with
  | .error e => .error e
  | .ok (_, rc) => finalize rc

namespace Config

/-- `Config::parse_config` (src/config.rs lines 53-67): always returns a
`Config`; on a parse failure it prints a warning to stderr and substitutes
`ConfigData::default()` instead of propagating the error. -/
def parse_config (str_config : String) (path_config : String) : Config :=
  { debug := 0
    use_input := true
    config_path := path_config
    config_data :=
      match toml_from_str str_config with
      | .ok config => config
      | .error _ => default }

end Config

/-! ## Interactive world model

The environment of one CLI invocation: the remaining interactive input
lines, the set of filesystem paths that exist, the configuration file
content on disk, and an ordered trace of observable events (prints, line
reads, configuration-file rewrites, data-file writes, and the spawn point
of the parallel sync workers). -/

/-- `GeneralError` from `src/errors.rs`, reduced to its message (the
optional wrapped source is not observable in any claim). -/
structure GeneralError where
  message : String
deriving DecidableEq, Repr

/-- `GeneralError::new`. -/
def GeneralError.new (msg : String) : GeneralError := ⟨msg⟩

/-- Observable side effects. -/
inductive Event where
  | print (msg : String)
  | readLine (s : String)
  | writeConfig (content : String)
  | writeData (path : String)
  | spawn
deriving DecidableEq, Repr

/-- The world state threaded through the interactive operations. -/
structure World where
  stdin : List String
  existing : List String
  file : Option String
  events : List Event
deriving DecidableEq, Repr

/-- `println!` as an event. -/
def println (msg : String) (w : World) : World :=
  { w with events := w.events ++ [.print msg] }

/-- Re-prompt message printed by `input_path` (src/utils.rs line 127). -/
def pathNotExistMsg : String := "Path does not exist. Please enter a valid path:"

/-- Loop body of `utils::input_path` (src/utils.rs lines 117-133), after
the first line has been read: on the single-backslash sentinel return the
`no path` error (checked before the existence test); on an existing path
return it (both as the path and its string form — `to_string_lossy` is the
identity here); otherwise print the re-prompt and read the next line.
Returns the remaining stdin, the events emitted after the first read, and
the result.  Reading past the end of input is modelled as a read error. -/
def input_path_go (ex : List String) (s : String) (stdin : List String) :
    List String × List Event × Except GeneralError (String × String) :=
  if s = "\\" then (stdin, [], .error (GeneralError.new "no path"))
  else if ex.contains s then (stdin, [], .ok (s, s))
  else
    match stdin with
    | [] => ([], [.print pathNotExistMsg],
        .error (GeneralError.new "Failed to read line from stdin"))
    | s2 :: rest =>
      let r := input_path_go ex s2 rest
      (r.1, .print pathNotExistMsg :: .readLine s2 :: r.2.1, r.2.2)

/-- `utils::input_path` (src/utils.rs lines 117-133). -/
def input_path (w : World) : World × Except GeneralError (String × String) :=
  match w.stdin with
  | [] => (w, .error (GeneralError.new "Failed to read line from stdin"))
  | s :: rest =>
    let r := input_path_go w.existing s rest
    ({ w with stdin := r.1, events := w.events ++ .readLine s :: r.2.1 }, r.2.2)

/-- The path-valued configuration fields reachable through the
`config_path!` macro (top-level section/field) and the `config_sub_path!`
macro (`sync.programs` sub-fields), with the instantiations appearing in
the source. -/
inductive FieldIx where
  | movies_file_path
  | movies_public_file_path
  | sync_save_folder_path
  | gh_file_pulls
  | gh_file_projects
  | sub_cargo_programs
  | sub_vscode_extensions
  | sub_nix
deriving DecidableEq, Repr

/-- The `$string` description passed to each macro instantiation. -/
def fieldDesc : FieldIx → String
  | .movies_file_path => "movies file"
  | .movies_public_file_path => "the public file for movies"
  | .sync_save_folder_path => "settings folder"
  | .gh_file_pulls => "pulls file"
  | .gh_file_projects => "projects file"
  | .sub_cargo_programs => "cargo programs"
  | .sub_vscode_extensions => "vscode extensions"
  | .sub_nix => "nix programs"

/-- The prompt printed by `config_path!`/`config_sub_path!`. -/
def promptMsg (f : FieldIx) : String :=
  "Please enter the path to the folder where to save " ++ fieldDesc f ++ ":"

/-- The field lookup performed by the macros' `match` patterns:
`Some(Struct { key: Some(path), .. })` for the top-level form, and
`Some(Struct { programs: Some(Sub { key: Some(path), .. }), .. })` for the
nested form. -/
def getField : FieldIx → ConfigData → Option String
  | .movies_file_path, cd => cd.movies.bind (·.file_path)
  | .movies_public_file_path, cd => cd.movies.bind (·.public_file_path)
  | .sync_save_folder_path, cd => cd.sync.bind (·.save_folder_path)
  | .gh_file_pulls, cd => cd.gh.bind (·.file_pulls)
  | .gh_file_projects, cd => cd.gh.bind (·.file_projects)
  | .sub_cargo_programs, cd => (cd.sync.bind (·.programs)).bind (·.cargo_programs)
  | .sub_vscode_extensions, cd => (cd.sync.bind (·.programs)).bind (·.vscode_extensions)
  | .sub_nix, cd => (cd.sync.bind (·.programs)).bind (·.nix)

/-- The updater closure passed to `config.update` by each macro
instantiation, transcribed branch by branch.  The top-level form
(`config_path!`, src/macros.rs lines 18-27) mutates the section in place
via `as_mut` when it exists and otherwise creates it from
`Default::default()` with the one field set.  The nested form
(`config_sub_path!`, src/macros.rs lines 72-88) mutates in place only when
both the section *and* the `programs` sub-record exist; in every other
case (`_` arm) it replaces the whole `sync` section by
`SyncCliCommand { programs: Some(...), ..Default::default() }`. -/
def setField (f : FieldIx) (path_string : String) (cd : ConfigData) : ConfigData :=
  match f with
  | .movies_file_path =>
    match cd.movies with
    | some m => { cd with movies := some { m with file_path := some path_string } }
    | none => { cd with movies := some { (default : Movies) with file_path := some path_string } }
  | .movies_public_file_path =>
    match cd.movies with
    | some m => { cd with movies := some { m with public_file_path := some path_string } }
    | none => { cd with movies := some { (default : Movies) with public_file_path := some path_string } }
  | .sync_save_folder_path =>
    match cd.sync with
    | some s => { cd with sync := some { s with save_folder_path := some path_string } }
    | none => { cd with sync := some { (default : SyncCliCommand) with save_folder_path := some path_string } }
  | .gh_file_pulls =>
    match cd.gh with
    | some g => { cd with gh := some { g with file_pulls := some path_string } }
    | none => { cd with gh := some { (default : Gh) with file_pulls := some path_string } }
  | .gh_file_projects =>
    match cd.gh with
    | some g => { cd with gh := some { g with file_projects := some path_string } }
    | none => { cd with gh := some { (default : Gh) with file_projects := some path_string } }
  | .sub_cargo_programs =>
    match cd.sync with
    | some s =>
      match s.programs with
      | some p => { cd with sync := some { s with programs := some { p with cargo_programs := some path_string } } }
      | none => { cd with sync := some { (default : SyncCliCommand) with programs := some { (default : ProgramsConfig) with cargo_programs := some path_string } } }
    | none => { cd with sync := some { (default : SyncCliCommand) with programs := some { (default : ProgramsConfig) with cargo_programs := some path_string } } }
  | .sub_vscode_extensions =>
    match cd.sync with
    | some s =>
      match s.programs with
      | some p => { cd with sync := some { s with programs := some { p with vscode_extensions := some path_string } } }
      | none => { cd with sync := some { (default : SyncCliCommand) with programs := some { (default : ProgramsConfig) with vscode_extensions := some path_string } } }
    | none => { cd with sync := some { (default : SyncCliCommand) with programs := some { (default : ProgramsConfig) with vscode_extensions := some path_string } } }
  | .sub_nix =>
    match cd.sync with
    | some s =>
      match s.programs with
      | some p => { cd with sync := some { s with programs := some { p with nix := some path_string } } }
      | none => { cd with sync := some { (default : SyncCliCommand) with programs := some { (default : ProgramsConfig) with nix := some path_string } } }
    | none => { cd with sync := some { (default : SyncCliCommand) with programs := some { (default : ProgramsConfig) with nix := some path_string } } }

namespace Config

/-- `Config::save` (src/config.rs lines 82-87): serialize `config_data`
and overwrite the configuration file. -/
def save (cfg : Config) (w : World) : World :=
  { w with
    file := some (toml_to_string cfg.config_data)
    events := w.events ++ [.writeConfig (toml_to_string cfg.config_data)] }

end Config

/-- Expansion of the get-or-prompt macros `config_path!` (src/macros.rs
lines 4-32) and `config_sub_path!` (lines 54-93) at a given field: if the
field is set, return it at once (no I/O); otherwise print the prompt, run
`input_path`, and on success apply the updater (`config.update`, which
saves the whole configuration to the file) and return the entered path.
Errors of `input_path` propagate via `?` with the side effects performed
so far intact. -/
def resolveField (f : FieldIx) (cfg : Config) (w : World) :
    (Config × World) × Except GeneralError String :=
  match getField f cfg.config_data with
  | some path => ((cfg, w), .ok path)
  | none =>
    let w1 := println (promptMsg f) w
    match input_path w1 with
    | (w2, .error e) => ((cfg, w2), .error e)
    | (w2, .ok (file_path, path_string)) =>
      let cfg2 := { cfg with config_data := setField f path_string cfg.config_data }
      ((cfg2, cfg2.save w2), .ok file_path)

/-- Expansion of the non-prompting accessor `get_config_path!`
(src/macros.rs lines 36-50) at a given field: the stored path, or an
error naming the missing setting.  The nested variant
(`get_config_sub_path!` used by `sync_programs_*`) is referenced by
src/commands/sync.rs but its macro text is not under src/; modelled from
the spec: same contract one level deeper, never prompting. -/
def get_config_path (f : FieldIx) (cfg : Config) : Except GeneralError String :=
  match getField f cfg.config_data with
  | some path => .ok path
  | none => .error (GeneralError.new ("The path " ++ fieldDesc f ++ " is not set"))

/-! ## GitHub projects (src/commands/gh) -/

/-- `GhLicenseInfo` from src/commands/gh/types.rs. -/
structure GhLicenseInfo where
  name : String
deriving DecidableEq, Repr

/-- `GhLanguage` from src/commands/gh/types.rs. -/
structure GhLanguage where
  name : String
  color : Option String
deriving DecidableEq, Repr

/-- `GhProject` from src/commands/gh/types.rs (a repository or a gist). -/
structure GhProject where
  url : String
  name : String
  description : Option String
  stargazer_count : ℤ
  archived_at : Option String
  homepage_url : Option String
  fork_count : Option ℕ
  license_info : Option GhLicenseInfo
  disk_usage : Option ℕ
  primary_language : Option GhLanguage
deriving DecidableEq, Repr

/-- The list written by `Gh::save_projects` (src/commands/gh/lib.rs lines
293-331): the fetched repositories and gists are each sorted by `name`
(`sort_by(|a, b| a.name.cmp(&b.name))`, modelled by a stable merge sort
on `≤`), then `repos.append(&mut gists)` concatenates them, and the result
is serialized as pretty JSON to the configured path.  The two fetches are
external collaborators; their results are the parameters. -/
def save_projects_output (repos gists : List GhProject) : List GhProject :=
  let repos := repos.mergeSort (fun a b => a.name ≤ b.name)
  let gists := gists.mergeSort (fun a b => a.name ≤ b.name)
  repos ++ gists

/-- The event trace produced by the `input_path` re-prompt loop when the
lines `pre` name non-existent paths and `good` names an existing one: a
read per line, a re-prompt print after each failed line. -/
def repromptEvents : List String → String → List Event
  | [], good => [.readLine good]
  | p :: ps, good => .readLine p :: .print pathNotExistMsg :: repromptEvents ps good

/-! ## Aggregate sync (src/commands/sync.rs)

`SyncCliCommand::sync_all` (lines 388-420) disables interactive input,
runs the pre-resolution phase sequentially on the main thread, and only
then spawns the parallel worker jobs inside `thread::scope`.  The workers
take the configuration read-only: they use the non-prompting
`get_config_path!`/`get_config_sub_path!` accessors and fail with an error
when a path is unset.  `Movies::pre_sync_movies`, `Gh::pre_sync_github`
and the worker-side bodies of the movies and gh jobs are referenced by
src/commands/sync.rs but their code is not under src/;
they are modelled from the spec (§5: the aggregate-sync path is given a
configuration that has already had all needed paths resolved before
spawning; workers only read it and write their own data files). -/

/-- `utils::input` reading one line. -/
def input (w : World) : World × Except GeneralError String :=
  match w.stdin with
  | [] => (w, .error (GeneralError.new "Failed to read line from stdin"))
  | s :: rest =>
    ({ w with stdin := rest, events := w.events ++ [.readLine s] }, .ok s)

/-- `utils::input_yes` (src/utils.rs lines 98-104). -/
def input_yes (prompt : String) (w : World) : World × Except GeneralError Bool :=
  let w1 := println (prompt ++ " (y/n):") w
  match input w1 with
  | (w2, .error e) => (w2, .error e)
  | (w2, .ok s) => (w2, .ok (s.toLower = "y" || s.toLower = "yes"))

/-- `utils::input_no` (src/utils.rs lines 109-112). -/
def input_no (prompt : String) (w : World) : World × Except GeneralError Bool :=
  match input_yes prompt w with
  | (w2, .error e) => (w2, .error e)
  | (w2, .ok b) => (w2, .ok (!b))

/-- Sequencing of two configuration-mutating steps with `?` propagation
(the `;`/`?` composition pattern of the Rust functions). -/
def andThen (r : (Config × World) × Except GeneralError Unit)
    (k : Config → World → (Config × World) × Except GeneralError Unit) :
    (Config × World) × Except GeneralError Unit :=
  match r with
  | (cw, .error e) => (cw, .error e)
  | ((c, w), .ok _) => k c w

/-- `w2` extends `w`'s event trace without emitting a spawn marker. -/
def SpawnFree (w w2 : World) : Prop :=
  ∃ Δ, w2.events = w.events ++ Δ ∧ Event.spawn ∉ Δ

/-- `resolveField` with the returned path discarded (the macro statements
whose value is dropped, e.g. `config_path!(...); Ok(())`). -/
def resolveFieldUnit (f : FieldIx) (cfg : Config) (w : World) :
    (Config × World) × Except GeneralError Unit :=
  match resolveField f cfg w with
  | (cw, .error e) => (cw, .error e)
  | (cw, .ok _) => (cw, .ok ())

/-- `SyncCliCommand::pre_save_files` (src/commands/sync.rs lines 134-143):
resolve (prompting if needed) the settings save folder. -/
def pre_save_files (cfg : Config) (w : World) :
    (Config × World) × Except GeneralError Unit :=
  resolveFieldUnit .sync_save_folder_path cfg w

/-- Common body of `SyncCliCommand::pre_sync_programs_{cargo,nix,vscode}`
(src/commands/sync.rs lines 219-241, 268-290, 318-339; the three are
clones differing only in the field, its projection and the question): a
no-op when `use_input` is off; otherwise, when the nested record exists
with the field unset, first ask whether to add one (skipping on "no"),
then fall through to `config_sub_path!`. -/
def pre_sync_programs_one (fld : FieldIx) (question : String)
    (proj : ProgramsConfig → Option String) (cfg : Config) (w : World) :
    (Config × World) × Except GeneralError Unit :=
  if !cfg.use_input then ((cfg, w), .ok ())
  else
    match cfg.config_data.sync with
    | some sy =>
      match sy.programs with
      | some p =>
        if proj p = none then
          match input_no question w with
          | (w1, .error e) => ((cfg, w1), .error e)
          | (w1, .ok b) =>
            if b then ((cfg, w1), .ok ())
            else resolveFieldUnit fld cfg w1
        else resolveFieldUnit fld cfg w
      | none => resolveFieldUnit fld cfg w
    | none => resolveFieldUnit fld cfg w

/-- `SyncCliCommand::pre_sync_programs_cargo` (lines 219-241). -/
def pre_sync_programs_cargo (cfg : Config) (w : World) :
    (Config × World) × Except GeneralError Unit :=
  pre_sync_programs_one .sub_cargo_programs
    "No cargo programs path found, do you want to add one?" (·.cargo_programs) cfg w

/-- `SyncCliCommand::pre_sync_programs_nix` (lines 268-290). -/
def pre_sync_programs_nix (cfg : Config) (w : World) :
    (Config × World) × Except GeneralError Unit :=
  pre_sync_programs_one .sub_nix
    "No nix programs path found, do you want to add one?" (·.nix) cfg w

/-- `SyncCliCommand::pre_sync_programs_vscode` (lines 318-339). -/
def pre_sync_programs_vscode (cfg : Config) (w : World) :
    (Config × World) × Except GeneralError Unit :=
  pre_sync_programs_one .sub_vscode_extensions
    "No vscode extensions path found, do you want to add one?" (·.vscode_extensions) cfg w

/-- `SyncCliCommand::pre_sync_programs` (lines 367-372): the three
pre-resolutions in sequence with `?` propagation. -/
def pre_sync_programs (cfg : Config) (w : World) :
    (Config × World) × Except GeneralError Unit :=
  andThen (pre_sync_programs_cargo cfg w) (fun c1 w1 =>
    andThen (pre_sync_programs_nix c1 w1) pre_sync_programs_vscode)

/-- Modelled from the spec: `Movies::pre_sync_movies` (called at
src/commands/sync.rs line 395; body not under src/) pre-resolves the
movies file path and the public movies file path. -/
def pre_sync_movies (cfg : Config) (w : World) :
    (Config × World) × Except GeneralError Unit :=
  andThen (resolveFieldUnit .movies_file_path cfg w)
    (resolveFieldUnit .movies_public_file_path)

/-- Modelled from the spec: `Gh::pre_sync_github` (called at
src/commands/sync.rs line 402; body not under src/) pre-resolves the
pulls file path and the projects file path. -/
def pre_sync_github (cfg : Config) (w : World) :
    (Config × World) × Except GeneralError Unit :=
  andThen (resolveFieldUnit .gh_file_pulls cfg w)
    (resolveFieldUnit .gh_file_projects)

/-- Modelled from the spec: the worker-side movies sync job spawned at
src/commands/sync.rs line 408 (body not under src/): reads the two movies
paths through the non-prompting accessor (error when unset) and writes the
public derived view to its own data file. -/
def movies_sync_job (cfg : Config) : List Event × Except GeneralError Unit :=
  match get_config_path .movies_file_path cfg with
  | .error e => ([], .error e)
  | .ok _ =>
    match get_config_path .movies_public_file_path cfg with
    | .error e => ([], .error e)
    | .ok pub => ([.writeData pub], .ok ())

/-- `SyncCliCommand::save_files` (src/commands/sync.rs lines 148-195):
reads the save folder via `get_config_path!` (error when unset), then
copies every configured file into the folder.  The per-file home-prefix
stripping and byte copying are abstracted to one data-file write event per
configured path. -/
def save_files (cfg : Config) : List Event × Except GeneralError Unit :=
  match get_config_path .sync_save_folder_path cfg with
  | .error e => ([], .error e)
  | .ok folder =>
    let files := match cfg.config_data.sync with
      | some s => s.file_paths
      | none => []
    (.print ("Saving files to " ++ folder) ::
      files.map (fun p => .writeData (folder ++ "/" ++ p)), .ok ())

/-- Worker side of `SyncCliCommand::sync_programs_cargo` (lines 245-263):
non-prompting path lookup, then one snapshot file write. -/
def sync_programs_cargo (cfg : Config) : List Event × Except GeneralError Unit :=
  match get_config_path .sub_cargo_programs cfg with
  | .error e => ([], .error e)
  | .ok p => ([.writeData p], .ok ())

/-- Worker side of `SyncCliCommand::sync_programs_nix` (lines 295-313). -/
def sync_programs_nix (cfg : Config) : List Event × Except GeneralError Unit :=
  match get_config_path .sub_nix cfg with
  | .error e => ([], .error e)
  | .ok p => ([.writeData p], .ok ())

/-- Worker side of `SyncCliCommand::sync_programs_vscode` (lines 344-362). -/
def sync_programs_vscode (cfg : Config) : List Event × Except GeneralError Unit :=
  match get_config_path .sub_vscode_extensions cfg with
  | .error e => ([], .error e)
  | .ok p => ([.writeData p], .ok ())

/-- `SyncCliCommand::sync_programs` (lines 377-383): prints, then runs the
three snapshot jobs in sequence with `?` propagation. -/
def sync_programs (cfg : Config) : List Event × Except GeneralError Unit :=
  match sync_programs_cargo cfg with
  | (e1, .error er) => (.print "Syncing programs" :: e1, .error er)
  | (e1, .ok _) =>
    match sync_programs_nix cfg with
    | (e2, .error er) => (.print "Syncing programs" :: (e1 ++ e2), .error er)
    | (e2, .ok _) =>
      match sync_programs_vscode cfg with
      | (e3, r) => (.print "Syncing programs" :: (e1 ++ e2 ++ e3), r)

/-- Modelled from the spec: worker-side `Gh::save_pulls` spawned at
src/commands/sync.rs line 415 (body not under src/): non-prompting path
lookup, paged fetch (external), one data-file write. -/
def save_pulls_job (cfg : Config) : List Event × Except GeneralError Unit :=
  match get_config_path .gh_file_pulls cfg with
  | .error e => ([], .error e)
  | .ok p => ([.writeData p], .ok ())

/-- Modelled from the spec: worker-side `Gh::save_projects` spawned at
src/commands/sync.rs line 416 (body not under src/). -/
def save_projects_job (cfg : Config) : List Event × Except GeneralError Unit :=
  match get_config_path .gh_file_projects cfg with
  | .error e => ([], .error e)
  | .ok p => ([.writeData p], .ok ())

/-- The pre-resolution phase of `sync_all` (src/commands/sync.rs lines
394-403): each enabled section's paths are resolved sequentially on the
main thread, errors propagating. -/
def sync_all_pre (cfg : Config) (w : World) :
    (Config × World) × Except GeneralError Unit :=
  andThen (if cfg.config_data.movies.isSome then pre_sync_movies cfg w
      else ((cfg, w), .ok ()))
    (fun c1 w1 =>
      andThen (if c1.config_data.sync.isSome
          then andThen (pre_save_files c1 w1) pre_sync_programs
          else ((c1, w1), .ok ()))
        (fun c2 w2 =>
          if c2.config_data.gh.isSome then pre_sync_github c2 w2
          else ((c2, w2), .ok ())))

/-- The events of the worker jobs spawned inside `thread::scope`
(src/commands/sync.rs lines 406-418); the jobs read the configuration
only and their results are discarded by the scope. -/
def sync_all_workers (cfg : Config) : List Event :=
  (if cfg.config_data.movies.isSome then (movies_sync_job cfg).1 else []) ++
  (if cfg.config_data.sync.isSome
    then (save_files cfg).1 ++ (sync_programs cfg).1 else []) ++
  (if cfg.config_data.gh.isSome
    then (save_pulls_job cfg).1 ++ (save_projects_job cfg).1 else [])

/-- `SyncCliCommand::sync_all` (src/commands/sync.rs lines 388-420):
disable interactive input, optionally print the debug banner, run the
pre-resolution phase, then spawn the workers. -/
def sync_all (cfg : Config) (w : World) :
    (Config × World) × Except GeneralError Unit :=
  let cfg := { cfg with use_input := false }
  let w := if cfg.debug > 1 then println "Syncing all" w else w
  match sync_all_pre cfg w with
  | (cw, .error e) => (cw, .error e)
  | ((c3, w3), .ok _) =>
    ((c3, { w3 with events :=
        w3.events ++ [.spawn] ++ sync_all_workers c3 }), .ok ())

/-! ## Helper lemmas: the string scanner undoes the escaper -/

theorem hexVal_hexDigitChar {k : ℕ} (h : k < 16) :
    hexVal (hexDigitChar k) = some k := by
  interval_cases k <;> rfl

theorem scanStrLit_cons_quote (fuel : ℕ) (r : List Char) :
    scanStrLit (fuel + 1) ('\"' :: r) = some ([], r) := by
  rw [scanStrLit]
  simp

theorem scanStrLit_cons_other {c : Char} (h1 : ¬c = '\"') (h2 : ¬c = '\\')
    (fuel : ℕ) (r : List Char) :
    scanStrLit (fuel + 1) (c :: r) =
      (scanStrLit fuel r).map (fun p => (c :: p.1, p.2)) := by
  rw [scanStrLit, if_neg h1, if_neg h2]

theorem scanStrLit_cons_esc {e d : Char} (hd : unescCode e = some d)
    (fuel : ℕ) (r : List Char) :
    scanStrLit (fuel + 1) ('\\' :: e :: r) =
      (scanStrLit fuel r).map (fun p => (d :: p.1, p.2)) := by
  rw [scanStrLit, if_neg (by decide), if_pos rfl, if_neg (by simp)]
  simp [hd]

theorem scanStrLit_escape (s : List Char) :
    ∀ (fuel : ℕ), s.length < fuel → ∀ (rest : List Char),
      scanStrLit fuel (escapeStr s ++ '\"' :: rest) = some (s, rest) := by
  induction s with
  | nil =>
    intro fuel hf rest
    obtain ⟨f, rfl⟩ : ∃ f, fuel = f + 1 := ⟨fuel - 1, by omega⟩
    simpa [escapeStr] using scanStrLit_cons_quote f rest
  | cons c cs ih =>
    intro fuel hf rest
    obtain ⟨f, rfl⟩ : ∃ f, fuel = f + 1 := ⟨fuel - 1, by omega⟩
    have hcs : cs.length < f := by simpa using Nat.lt_of_succ_lt_succ hf
    have hexp : escapeStr (c :: cs) ++ '\"' :: rest =
        escChar c ++ (escapeStr cs ++ '\"' :: rest) := by
      simp [escapeStr]
    rw [hexp]
    by_cases h1 : c = '\"'
    · subst h1
      rw [show escChar '\"' = ['\\', '\"'] from rfl, List.cons_append,
        List.singleton_append, scanStrLit_cons_esc (e := '\"') (d := '\"') rfl, ih f hcs rest]
      rfl
    · by_cases h2 : c = '\\'
      · subst h2
        rw [show escChar '\\' = ['\\', '\\'] from rfl, List.cons_append,
          List.singleton_append, scanStrLit_cons_esc (e := '\\') (d := '\\') rfl, ih f hcs rest]
        rfl
      · by_cases h3 : c = '\n'
        · subst h3
          rw [show escChar '\n' = ['\\', 'n'] from rfl, List.cons_append,
            List.singleton_append, scanStrLit_cons_esc (e := 'n') (d := '\n') rfl, ih f hcs rest]
          rfl
        · by_cases h4 : c = '\t'
          · subst h4
            rw [show escChar '\t' = ['\\', 't'] from rfl, List.cons_append,
              List.singleton_append, scanStrLit_cons_esc (e := 't') (d := '\t') rfl, ih f hcs rest]
            rfl
          · by_cases h5 : c = '\r'
            · subst h5
              rw [show escChar '\r' = ['\\', 'r'] from rfl, List.cons_append,
                List.singleton_append, scanStrLit_cons_esc (e := 'r') (d := '\r') rfl, ih f hcs rest]
              rfl
            · by_cases h6 : c = Char.ofNat 8
              · subst h6
                rw [show escChar (Char.ofNat 8) = ['\\', 'b'] from rfl, List.cons_append,
                  List.singleton_append,
                  scanStrLit_cons_esc (e := 'b') (d := Char.ofNat 8) rfl, ih f hcs rest]
                rfl
              · by_cases h7 : c = Char.ofNat 12
                · subst h7
                  rw [show escChar (Char.ofNat 12) = ['\\', 'f'] from rfl, List.cons_append,
                    List.singleton_append,
                    scanStrLit_cons_esc (e := 'f') (d := Char.ofNat 12) rfl, ih f hcs rest]
                  rfl
                · by_cases h8 : c.toNat < 32 ∨ c.toNat = 127
                  · have hchar : escChar c = '\\' :: 'u' :: hex4 c.toNat := by
                      rw [escChar, if_neg h1, if_neg h2, if_neg h3, if_neg h4,
                        if_neg h5, if_neg h6, if_neg h7, if_pos h8]
                    rw [hchar, List.cons_append, List.cons_append, scanStrLit,
                      if_neg (by decide), if_pos rfl, if_neg (by simp)]
                    simp only [List.headD_cons, List.tail_cons,
                      show unescCode 'u' = none from rfl, Option.elim, if_pos rfl,
                      hex4, List.cons_append, List.nil_append]
                    rw [show ∀ a b c2 d tail, hex4Dec (a :: b :: c2 :: d :: tail) =
                        (hexVal a).bind fun x => (hexVal b).bind fun y =>
                          (hexVal c2).bind fun z => (hexVal d).map fun w =>
                            4096 * x + 256 * y + 16 * z + w
                      from fun _ _ _ _ _ => rfl]
                    rw [hexVal_hexDigitChar (Nat.mod_lt _ (by norm_num)),
                      hexVal_hexDigitChar (Nat.mod_lt _ (by norm_num)),
                      hexVal_hexDigitChar (Nat.mod_lt _ (by norm_num)),
                      hexVal_hexDigitChar (Nat.mod_lt _ (by norm_num))]
                    have hre : 4096 * (c.toNat / 4096 % 16) + 256 * (c.toNat / 256 % 16) +
                        16 * (c.toNat / 16 % 16) + c.toNat % 16 = c.toNat := by omega
                    simp only [Option.bind_some, Option.map_some, Option.elim_some,
                      List.drop_succ_cons, List.drop_zero, hre, Char.ofNat_toNat,
                      ih f hcs rest, Option.map_some]
                    simp [hre]
                  · have hchar : escChar c = [c] := by
                      rw [escChar, if_neg h1, if_neg h2, if_neg h3, if_neg h4,
                        if_neg h5, if_neg h6, if_neg h7, if_neg h8]
                    rw [hchar, List.singleton_append, scanStrLit_cons_other h1 h2,
                      ih f hcs rest]
                    rfl

theorem length_le_length_escChar (c : Char) : 1 ≤ (escChar c).length := by
  rw [escChar]
  split_ifs <;> simp [hex4]

theorem length_le_length_escapeStr (s : List Char) :
    s.length ≤ (escapeStr s).length := by
  induction s with
  | nil => simp [escapeStr]
  | cons c cs ih =>
    have h1 := length_le_length_escChar c
    simp only [escapeStr, List.flatMap_cons, List.length_append, List.length_cons]
    simp only [escapeStr] at ih
    omega

theorem skipSpaces_nil : skipSpaces [] = [] := rfl

theorem skipSpaces_cons_of_ne {c : Char} (h : ¬c = ' ') (l : List Char) :
    skipSpaces (c :: l) = c :: l := by
  simp [skipSpaces, List.dropWhile_cons, h]

theorem skipSpaces_space_cons (l : List Char) :
    skipSpaces (' ' :: l) = skipSpaces l := by
  simp [skipSpaces, List.dropWhile_cons]

/-- Head character of a rendered array-element list (when non-empty). -/
theorem renderArrInner_cons_shape (x : String) (xs : List String) :
    ∃ t, renderArrInner (x :: xs) = '\"' :: t := by
  cases xs <;> simp [renderArrInner, renderStrLit]

theorem length_le_length_renderArrInner (xs : List String) :
    xs.length ≤ (renderArrInner xs).length := by
  induction xs with
  | nil => simp [renderArrInner]
  | cons x xs ih =>
    cases xs with
    | nil => simp [renderArrInner, renderStrLit]
    | cons y ys =>
      simp only [renderArrInner, renderStrLit, List.length_cons, List.length_append] at *
      omega

theorem scanStrLit_renderStrLit_tail (x : String) (tail : List Char) (fuel : ℕ)
    (hf : (escapeStr x.data ++ '\"' :: tail).length < fuel) :
    scanStrLit fuel (escapeStr x.data ++ '\"' :: tail) = some (x.data, tail) := by
  have hx : x.data.length < fuel := by
    have := length_le_length_escapeStr x.data
    simp only [List.length_append, List.length_cons] at hf
    omega
  exact scanStrLit_escape x.data fuel hx tail

theorem scanArrElems_render (xs : List String) :
    ∀ (fuel : ℕ), xs.length < fuel → ∀ (pad : ℕ) (rest : List Char),
      scanArrElems fuel
          (List.replicate pad ' ' ++ (renderArrInner xs ++ ']' :: rest)) =
        some (xs, rest) := by
  have hskip : ∀ (p : ℕ) (A : List Char),
      skipSpaces (List.replicate p ' ' ++ A) = skipSpaces A := by
    intro p
    induction p with
    | zero => simp
    | succ n ih => intro A; simpa [List.replicate_succ, skipSpaces_space_cons] using ih A
  induction xs with
  | nil =>
    intro fuel hf pad rest
    obtain ⟨f, rfl⟩ : ∃ f, fuel = f + 1 := ⟨fuel - 1, by omega⟩
    rw [scanArrElems]
    simp only [renderArrInner, List.nil_append, hskip,
      skipSpaces_cons_of_ne (by decide : ¬(']' : Char) = ' ')]
    simp
  | cons x xs ih =>
    intro fuel hf pad rest
    obtain ⟨f, rfl⟩ : ∃ f, fuel = f + 1 := ⟨fuel - 1, by omega⟩
    rw [scanArrElems]
    cases xs with
    | nil =>
      have hshape : renderArrInner [x] ++ ']' :: rest =
          '\"' :: (escapeStr x.data ++ '\"' :: (']' :: rest)) := by
        simp [renderArrInner, renderStrLit]
      rw [hshape]
      simp only [hskip, skipSpaces_cons_of_ne (by decide : ¬('\"' : Char) = ' ')]
      simp only [List.headD_cons, List.tail_cons]
      rw [if_pos trivial,
        scanStrLit_renderStrLit_tail x (']' :: rest) _ (by omega)]
      simp only [Option.elim_some]
      rw [skipSpaces_cons_of_ne (by decide : ¬(']' : Char) = ' ')]
      simp
    | cons y ys =>
      have hshape : renderArrInner (x :: y :: ys) ++ ']' :: rest =
          '\"' :: (escapeStr x.data ++ '\"' ::
            (',' :: ' ' :: (renderArrInner (y :: ys) ++ ']' :: rest))) := by
        simp [renderArrInner, renderStrLit]
      rw [hshape]
      simp only [hskip, skipSpaces_cons_of_ne (by decide : ¬('\"' : Char) = ' ')]
      simp only [List.headD_cons, List.tail_cons]
      rw [if_pos trivial,
        scanStrLit_renderStrLit_tail x (',' :: ' ' :: (renderArrInner (y :: ys) ++ ']' :: rest)) _ (by omega)]
      simp only [Option.elim_some]
      rw [skipSpaces_cons_of_ne (by decide : ¬(',' : Char) = ' ')]
      simp only [List.headD_cons, List.tail_cons, if_pos rfl]
      have hrec := ih f (by simpa using Nat.lt_of_succ_lt_succ hf) 1 rest
      simp only [List.replicate_one, List.singleton_append] at hrec
      rw [hrec]
      simp

theorem scanValue_render (v : TomlValue) : scanValue (renderValue v) = some v := by
  cases v with
  | str s =>
    show scanValue ('\"' :: (escapeStr s.data ++ ['\"'])) = _
    rw [scanValue]
    simp only [List.headD_cons, List.tail_cons, if_pos rfl, List.length_cons]
    have : escapeStr s.data ++ ['\"'] = escapeStr s.data ++ '\"' :: [] := rfl
    rw [this, scanStrLit_renderStrLit_tail s [] _ (by omega)]
    simp [skipSpaces_nil]
  | arr xs =>
    show scanValue ('[' :: (renderArrInner xs ++ [']'])) = _
    rw [scanValue]
    simp only [List.headD_cons, List.tail_cons, List.length_cons]
    rw [if_pos trivial]
    have : renderArrInner xs ++ [']'] = renderArrInner xs ++ ']' :: [] := rfl
    rw [this]
    have hlen : xs.length < (renderArrInner xs ++ ']' :: ([] : List Char)).length + 1 := by
      have := length_le_length_renderArrInner xs
      simp only [List.length_append, List.length_cons]
      omega
    have := scanArrElems_render xs ((renderArrInner xs ++ ']' :: ([] : List Char)).length + 1)
      hlen 0 []
    simp only [List.replicate, List.nil_append] at this
    rw [this]
    simp [skipSpaces_nil]

/-! ## Helper lemmas: line-level parsing undoes line-level printing -/

theorem takeWhile_append_cons_of {p : Char → Bool} {y : Char} (hy : p y = false)
    (xs t : List Char) (hx : ∀ c ∈ xs, p c = true) :
    (xs ++ y :: t).takeWhile p = xs := by
  induction xs with
  | nil => simp [List.takeWhile_cons, hy]
  | cons a as ih =>
    have ha : p a = true := hx a (by simp)
    simp only [List.cons_append, List.takeWhile_cons, ha, if_true]
    rw [ih (fun c hc => hx c (by simp [hc]))]

theorem dropWhile_append_cons_of {p : Char → Bool} {y : Char} (hy : p y = false)
    (xs t : List Char) (hx : ∀ c ∈ xs, p c = true) :
    (xs ++ y :: t).dropWhile p = y :: t := by
  induction xs with
  | nil => simp [List.dropWhile_cons, hy]
  | cons a as ih =>
    have ha : p a = true := hx a (by simp)
    simp only [List.cons_append, List.dropWhile_cons, ha, if_true]
    exact ih (fun c hc => hx c (by simp [hc]))

theorem skipSpaces_renderValue (v : TomlValue) :
    skipSpaces (renderValue v) = renderValue v := by
  cases v with
  | str s => exact skipSpaces_cons_of_ne (by decide) _
  | arr xs => exact skipSpaces_cons_of_ne (by decide) _

theorem parseLine_renderKV (key : String) (v : TomlValue)
    (hne : ¬key.data = []) (hbare : ∀ c ∈ key.data, isBareKeyChar c = true) :
    parseLine (renderKV key v) = .ok (.kv key v) := by
  obtain ⟨c0, t0, hk⟩ := List.exists_cons_of_ne_nil hne
  have hc0 : isBareKeyChar c0 = true := hbare c0 (by rw [hk]; simp)
  have hbr : ¬c0 = '[' := by
    intro h
    rw [h] at hc0
    exact absurd hc0 (by decide)
  have htake : (key.data ++ ' ' :: '=' :: ' ' :: renderValue v).takeWhile isBareKeyChar
      = key.data := takeWhile_append_cons_of (by decide) _ _ hbare
  have hdrop : (key.data ++ ' ' :: '=' :: ' ' :: renderValue v).dropWhile isBareKeyChar
      = ' ' :: '=' :: ' ' :: renderValue v := dropWhile_append_cons_of (by decide) _ _ hbare
  have hskip1 : skipSpaces (' ' :: '=' :: ' ' :: renderValue v)
      = '=' :: ' ' :: renderValue v := by
    rw [skipSpaces_space_cons, skipSpaces_cons_of_ne (by decide)]
  have hskip2 : skipSpaces (' ' :: renderValue v) = renderValue v := by
    rw [skipSpaces_space_cons, skipSpaces_renderValue]
  rw [hk] at htake hdrop
  simp only [renderKV, parseLine, hk, List.cons_append] at htake hdrop ⊢
  simp only [htake, hdrop, hskip1, hskip2, List.headD_cons, List.tail_cons,
    scanValue_render, Option.elim_some, eq_false hbr, reduceCtorEq, if_false,
    reduceIte]
  rw [← hk]

theorem parseLine_renderHeader (name : String)
    (hname : ∀ c ∈ name.data, (!(c = ']') : Bool) = true) :
    parseLine (renderHeader name) = .ok (.header name) := by
  have htake : (name.data ++ ']' :: []).takeWhile (fun c => !(c = ']')) = name.data :=
    takeWhile_append_cons_of (by decide) _ _ hname
  have hdrop : (name.data ++ ']' :: []).dropWhile (fun c => !(c = ']')) = ']' :: [] :=
    dropWhile_append_cons_of (by decide) _ _ hname
  simp only [renderHeader, parseLine, List.headD_cons, List.tail_cons, reduceCtorEq,
    if_false, reduceIte, htake, hdrop, skipSpaces_nil]

theorem parseLine_nil : parseLine [] = .ok .blank := rfl

theorem processLines_nil (sec : Option String) (rc : RawConfig) :
    processLines [] sec rc = .ok (sec, rc) := by
  rw [processLines]

theorem processLines_cons (l : List Char) (ls : List (List Char))
    (sec : Option String) (rc : RawConfig) :
    processLines (l :: ls) sec rc =
      ((parseLine l).bind (fun pl => stepLine pl sec rc)).bind
        (fun st => processLines ls st.1 st.2) := by
  rw [processLines]

theorem processLines_append (a b : List (List Char)) :
    ∀ (sec : Option String) (rc : RawConfig),
      processLines (a ++ b) sec rc =
        (processLines a sec rc).bind (fun st => processLines b st.1 st.2) := by
  induction a with
  | nil =>
    intro sec rc
    simp [processLines_nil, Except.bind]
  | cons l ls ih =>
    intro sec rc
    rw [List.cons_append, processLines_cons, processLines_cons]
    cases hres : ((parseLine l).bind (fun pl => stepLine pl sec rc)) with
    | error e => simp [Except.bind]
    | ok st => simp [Except.bind, ih]

theorem parseLine_header_movies :
    parseLine (renderHeader "movies") = .ok (.header "movies") :=
  parseLine_renderHeader _ (by decide)

theorem parseLine_header_sync :
    parseLine (renderHeader "sync") = .ok (.header "sync") :=
  parseLine_renderHeader _ (by decide)

theorem parseLine_header_sync_programs :
    parseLine (renderHeader "sync.programs") = .ok (.header "sync.programs") :=
  parseLine_renderHeader _ (by decide)

theorem parseLine_header_gh :
    parseLine (renderHeader "gh") = .ok (.header "gh") :=
  parseLine_renderHeader _ (by decide)

theorem parseLine_header_music :
    parseLine (renderHeader "music") = .ok (.header "music") :=
  parseLine_renderHeader _ (by decide)

theorem parseLine_kv_file_path (v : TomlValue) :
    parseLine (renderKV "file_path" v) = .ok (.kv "file_path" v) :=
  parseLine_renderKV _ _ (by decide) (by decide)

theorem parseLine_kv_public_file_path (v : TomlValue) :
    parseLine (renderKV "public_file_path" v) = .ok (.kv "public_file_path" v) :=
  parseLine_renderKV _ _ (by decide) (by decide)

theorem parseLine_kv_file_paths (v : TomlValue) :
    parseLine (renderKV "file_paths" v) = .ok (.kv "file_paths" v) :=
  parseLine_renderKV _ _ (by decide) (by decide)

theorem parseLine_kv_save_folder_path (v : TomlValue) :
    parseLine (renderKV "save_folder_path" v) = .ok (.kv "save_folder_path" v) :=
  parseLine_renderKV _ _ (by decide) (by decide)

theorem parseLine_kv_cargo_programs (v : TomlValue) :
    parseLine (renderKV "cargo_programs" v) = .ok (.kv "cargo_programs" v) :=
  parseLine_renderKV _ _ (by decide) (by decide)

theorem parseLine_kv_vscode_extensions (v : TomlValue) :
    parseLine (renderKV "vscode_extensions" v) = .ok (.kv "vscode_extensions" v) :=
  parseLine_renderKV _ _ (by decide) (by decide)

theorem parseLine_kv_nix (v : TomlValue) :
    parseLine (renderKV "nix" v) = .ok (.kv "nix" v) :=
  parseLine_renderKV _ _ (by decide) (by decide)

theorem parseLine_kv_username (v : TomlValue) :
    parseLine (renderKV "username" v) = .ok (.kv "username" v) :=
  parseLine_renderKV _ _ (by decide) (by decide)

theorem parseLine_kv_file_pulls (v : TomlValue) :
    parseLine (renderKV "file_pulls" v) = .ok (.kv "file_pulls" v) :=
  parseLine_renderKV _ _ (by decide) (by decide)

theorem parseLine_kv_file_projects (v : TomlValue) :
    parseLine (renderKV "file_projects" v) = .ok (.kv "file_projects" v) :=
  parseLine_renderKV _ _ (by decide) (by decide)

theorem parseLine_kv_music_file (v : TomlValue) :
    parseLine (renderKV "music_file" v) = .ok (.kv "music_file" v) :=
  parseLine_renderKV _ _ (by decide) (by decide)

theorem parseLine_kv_env_path (v : TomlValue) :
    parseLine (renderKV "env_path" v) = .ok (.kv "env_path" v) :=
  parseLine_renderKV _ _ (by decide) (by decide)

theorem applyHeader_movies (rc : RawConfig) :
    applyHeader "movies" rc = { rc with movies := some (rc.movies.getD default) } := rfl

theorem applyHeader_sync (rc : RawConfig) :
    applyHeader "sync" rc = { rc with sync := some (rc.sync.getD default) } := rfl

theorem applyHeader_sync_programs (rc : RawConfig) :
    applyHeader "sync.programs" rc =
      { rc with sync := some { rc.sync.getD default with
          programs := some ((rc.sync.getD default).programs.getD default) } } := rfl

theorem applyHeader_gh (rc : RawConfig) :
    applyHeader "gh" rc = { rc with gh := some (rc.gh.getD default) } := rfl

theorem applyHeader_music (rc : RawConfig) :
    applyHeader "music" rc = { rc with music := some (rc.music.getD default) } := rfl

theorem applyKV_movies_file_path (s : String) (rc : RawConfig) :
    applyKV (some "movies") "file_path" (.str s) rc =
      .ok { rc with movies := some { rc.movies.getD default with file_path := some s } } := rfl

theorem applyKV_movies_public_file_path (s : String) (rc : RawConfig) :
    applyKV (some "movies") "public_file_path" (.str s) rc =
      .ok { rc with movies := some ({ rc.movies.getD default with public_file_path := some s }) } := rfl

theorem applyKV_sync_file_paths (es : List String) (rc : RawConfig) :
    applyKV (some "sync") "file_paths" (.arr es) rc =
      .ok { rc with sync := some { rc.sync.getD default with file_paths := some es } } := rfl

theorem applyKV_sync_save_folder_path (s : String) (rc : RawConfig) :
    applyKV (some "sync") "save_folder_path" (.str s) rc =
      .ok { rc with sync := some ({ rc.sync.getD default with save_folder_path := some s }) } := rfl

theorem applyKV_programs_cargo (s : String) (rc : RawConfig) :
    applyKV (some "sync.programs") "cargo_programs" (.str s) rc =
      .ok { rc with sync := some { rc.sync.getD default with
        programs := some { (rc.sync.getD default).programs.getD default with
          cargo_programs := some s } } } := rfl

theorem applyKV_programs_vscode (s : String) (rc : RawConfig) :
    applyKV (some "sync.programs") "vscode_extensions" (.str s) rc =
      .ok { rc with sync := some { rc.sync.getD default with
        programs := some { (rc.sync.getD default).programs.getD default with
          vscode_extensions := some s } } } := rfl

theorem applyKV_programs_nix (s : String) (rc : RawConfig) :
    applyKV (some "sync.programs") "nix" (.str s) rc =
      .ok { rc with sync := some { rc.sync.getD default with
        programs := some { (rc.sync.getD default).programs.getD default with
          nix := some s } } } := rfl

theorem applyKV_gh_username (s : String) (rc : RawConfig) :
    applyKV (some "gh") "username" (.str s) rc =
      .ok { rc with gh := some { rc.gh.getD default with username := some s } } := rfl

theorem applyKV_gh_file_pulls (s : String) (rc : RawConfig) :
    applyKV (some "gh") "file_pulls" (.str s) rc =
      .ok { rc with gh := some { rc.gh.getD default with file_pulls := some s } } := rfl

theorem applyKV_gh_file_projects (s : String) (rc : RawConfig) :
    applyKV (some "gh") "file_projects" (.str s) rc =
      .ok { rc with gh := some { rc.gh.getD default with file_projects := some s } } := rfl

theorem applyKV_music_music_file (s : String) (rc : RawConfig) :
    applyKV (some "music") "music_file" (.str s) rc =
      .ok { rc with music := some { rc.music.getD default with music_file := some s } } := rfl

theorem applyKV_music_env_path (s : String) (rc : RawConfig) :
    applyKV (some "music") "env_path" (.str s) rc =
      .ok { rc with music := some { rc.music.getD default with env_path := some s } } := rfl

theorem movies_default : (default : Movies) = ⟨none, none⟩ := rfl

theorem programsConfig_default : (default : ProgramsConfig) = ⟨none, none, none⟩ := rfl

theorem rawSync_default : (default : RawSync) = ⟨none, none, none⟩ := rfl

theorem gh_default : (default : Gh) = ⟨none, none, none⟩ := rfl

theorem musicCliCommand_default : (default : MusicCliCommand) = ⟨none, none⟩ := rfl

theorem processLines_moviesLines_some (m : Movies) (sec : Option String)
    (rc : RawConfig) (h : rc.movies = none) :
    processLines (moviesLines (some m)) sec rc =
      .ok (some "movies", { rc with movies := some m }) := by
  rcases m with ⟨fp, pfp⟩
  rcases fp with _ | fp <;> rcases pfp with _ | pfp <;>
    simp [moviesLines, optKV, processLines_cons, processLines_nil,
      parseLine_header_movies, parseLine_kv_file_path, parseLine_kv_public_file_path,
      stepLine, Except.bind, Except.map, applyHeader_movies, applyKV_movies_file_path,
      applyKV_movies_public_file_path, h, movies_default]

theorem processLines_programsLines_some (p : ProgramsConfig) (sec : Option String)
    (rc : RawConfig) (s0 : RawSync) (h : rc.sync = some s0) (hp : s0.programs = none) :
    processLines (programsLines (some p)) sec rc =
      .ok (some "sync.programs", { rc with sync := some { s0 with programs := some p } }) := by
  rcases p with ⟨cg, vs, nx⟩
  rcases cg with _ | cg <;> rcases vs with _ | vs <;> rcases nx with _ | nx <;>
    simp [programsLines, optKV, processLines_cons, processLines_nil,
      parseLine_header_sync_programs, parseLine_kv_cargo_programs,
      parseLine_kv_vscode_extensions, parseLine_kv_nix,
      stepLine, Except.bind, Except.map, applyHeader_sync_programs, applyKV_programs_cargo,
      applyKV_programs_vscode, applyKV_programs_nix, h, hp, programsConfig_default]

theorem processLines_syncLines_some (s : SyncCliCommand) (sec : Option String)
    (rc : RawConfig) (h : rc.sync = none) :
    ∃ sec2, processLines (syncLines (some s)) sec rc =
      .ok (sec2, { rc with sync := some ⟨some s.file_paths, s.save_folder_path, s.programs⟩ }) := by
  rcases s with ⟨fps, sfp, pr⟩
  have hsplit : syncLines (some ⟨fps, sfp, pr⟩) =
      (renderHeader "sync" :: renderKV "file_paths" (.arr fps) ::
        optKV "save_folder_path" sfp) ++ programsLines pr := by
    cases sfp <;> simp [syncLines, optKV]
  rw [hsplit, processLines_append]
  have h1 : processLines (renderHeader "sync" :: renderKV "file_paths" (.arr fps) ::
      optKV "save_folder_path" sfp) sec rc =
      .ok (some "sync", { rc with sync := some ⟨some fps, sfp, none⟩ }) := by
    rcases sfp with _ | sfp <;>
      simp [optKV, processLines_cons, processLines_nil, parseLine_header_sync,
        parseLine_kv_file_paths, parseLine_kv_save_folder_path, stepLine,
        Except.bind, Except.map, applyHeader_sync, applyKV_sync_file_paths,
        applyKV_sync_save_folder_path, h, rawSync_default]
  rw [h1]
  rcases pr with _ | pr
  · refine ⟨some "sync", ?_⟩
    simp [programsLines, processLines_nil, Except.bind]
  · refine ⟨some "sync.programs", ?_⟩
    have h2 := processLines_programsLines_some pr (some "sync")
      { rc with sync := some ⟨some fps, sfp, none⟩ } ⟨some fps, sfp, none⟩ (by simp) rfl
    simp only [Except.bind]
    rw [h2]

theorem processLines_ghLines_some (g : Gh) (sec : Option String)
    (rc : RawConfig) (h : rc.gh = none) :
    processLines (ghLines (some g)) sec rc =
      .ok (some "gh", { rc with gh := some g }) := by
  rcases g with ⟨u, fp, fj⟩
  rcases u with _ | u <;> rcases fp with _ | fp <;> rcases fj with _ | fj <;>
    simp [ghLines, optKV, processLines_cons, processLines_nil,
      parseLine_header_gh, parseLine_kv_username, parseLine_kv_file_pulls,
      parseLine_kv_file_projects, stepLine, Except.bind, Except.map, applyHeader_gh,
      applyKV_gh_username, applyKV_gh_file_pulls, applyKV_gh_file_projects, h, gh_default]

theorem processLines_musicLines_some (m : MusicCliCommand) (sec : Option String)
    (rc : RawConfig) (h : rc.music = none) :
    processLines (musicLines (some m)) sec rc =
      .ok (some "music", { rc with music := some m }) := by
  rcases m with ⟨mf, ep⟩
  rcases mf with _ | mf <;> rcases ep with _ | ep <;>
    simp [musicLines, optKV, processLines_cons, processLines_nil,
      parseLine_header_music, parseLine_kv_music_file, parseLine_kv_env_path,
      stepLine, Except.bind, Except.map, applyHeader_music, applyKV_music_music_file,
      applyKV_music_env_path, h, musicCliCommand_default]

/-! ## Helper lemmas: printed lines contain no newline, and the document
round trip -/

theorem newline_not_mem_hex4 (n : ℕ) : '\n' ∉ hex4 n := by
  have h : ∀ k, k < 16 → ¬hexDigitChar k = '\n' := by decide
  intro hmem
  simp only [hex4, List.mem_cons, List.mem_singleton, List.not_mem_nil, or_false] at hmem
  rcases hmem with h1 | h1 | h1 | h1 <;>
    exact h _ (Nat.mod_lt _ (by norm_num)) h1.symm

theorem newline_not_mem_escChar (c : Char) : '\n' ∉ escChar c := by
  rw [escChar]
  split_ifs with h1 h2 h3 h4 h5 h6 h7 h8
  · decide
  · decide
  · decide
  · decide
  · decide
  · decide
  · decide
  · intro hmem
    simp only [List.mem_cons] at hmem
    rcases hmem with h | h | h
    · exact absurd h (by decide)
    · exact absurd h (by decide)
    · exact newline_not_mem_hex4 _ h
  · intro hmem
    simp only [List.mem_singleton] at hmem
    exact h3 hmem.symm

theorem newline_not_mem_escapeStr (s : List Char) : '\n' ∉ escapeStr s := by
  intro hmem
  simp only [escapeStr, List.mem_flatMap] at hmem
  obtain ⟨a, _, ha⟩ := hmem
  exact newline_not_mem_escChar a ha

theorem newline_not_mem_renderStrLit (x : String) : '\n' ∉ renderStrLit x := by
  intro hmem
  simp only [renderStrLit, List.mem_cons, List.mem_append, List.mem_singleton] at hmem
  rcases hmem with h | h | h
  · exact absurd h (by decide)
  · exact newline_not_mem_escapeStr _ h
  · exact absurd h (by decide)

theorem newline_not_mem_renderArrInner (xs : List String) :
    '\n' ∉ renderArrInner xs := by
  induction xs with
  | nil => simp [renderArrInner]
  | cons x ys ih =>
    cases ys with
    | nil => exact newline_not_mem_renderStrLit x
    | cons y zs =>
      intro hmem
      simp only [renderArrInner, List.mem_append, List.mem_cons] at hmem
      rcases hmem with h | h | h | h
      · exact newline_not_mem_renderStrLit x h
      · exact absurd h (by decide)
      · exact absurd h (by decide)
      · exact ih (by simpa [renderArrInner] using h)

theorem newline_not_mem_renderValue (v : TomlValue) : '\n' ∉ renderValue v := by
  cases v with
  | str s => exact newline_not_mem_renderStrLit s
  | arr xs =>
    intro hmem
    simp only [renderValue, List.mem_cons, List.mem_append, List.mem_singleton] at hmem
    rcases hmem with h | h | h
    · exact absurd h (by decide)
    · exact newline_not_mem_renderArrInner _ h
    · exact absurd h (by decide)

theorem newline_not_mem_renderKV (key : String) (v : TomlValue)
    (hk : ∀ c ∈ key.data, isBareKeyChar c = true) : '\n' ∉ renderKV key v := by
  intro hmem
  simp only [renderKV, List.mem_append, List.mem_cons] at hmem
  rcases hmem with h | h | h | h
  · exact absurd (hk _ h) (by decide)
  · exact absurd h (by decide)
  · exact absurd h (by decide)
  · rcases h with h | h
    · exact absurd h (by decide)
    · exact newline_not_mem_renderValue v h

theorem newline_not_mem_renderHeader (name : String)
    (hn : '\n' ∉ name.data) : '\n' ∉ renderHeader name := by
  intro hmem
  simp only [renderHeader, List.mem_cons, List.mem_append, List.mem_singleton] at hmem
  rcases hmem with h | h | h
  · exact absurd h (by decide)
  · exact hn h
  · exact absurd h (by decide)

theorem newline_not_mem_optKV (key : String) (o : Option String)
    (hk : ∀ c ∈ key.data, isBareKeyChar c = true) :
    ∀ l ∈ optKV key o, '\n' ∉ l := by
  cases o with
  | none => simp [optKV]
  | some s =>
    intro l hl
    simp only [optKV, List.mem_singleton] at hl
    subst hl
    exact newline_not_mem_renderKV key _ hk

theorem newline_not_mem_moviesLines (m : Option Movies) :
    ∀ l ∈ moviesLines m, '\n' ∉ l := by
  cases m with
  | none => simp [moviesLines]
  | some mm =>
    intro l hl
    simp only [moviesLines, List.mem_cons, List.mem_append] at hl
    rcases hl with h | h | h
    · subst h; exact newline_not_mem_renderHeader _ (by decide)
    · exact newline_not_mem_optKV _ _ (by decide) _ h
    · exact newline_not_mem_optKV _ _ (by decide) _ h

theorem newline_not_mem_programsLines (p : Option ProgramsConfig) :
    ∀ l ∈ programsLines p, '\n' ∉ l := by
  cases p with
  | none => simp [programsLines]
  | some pp =>
    intro l hl
    simp only [programsLines, List.mem_cons, List.mem_append] at hl
    rcases hl with h | (h | h) | h
    · subst h; exact newline_not_mem_renderHeader _ (by decide)
    · exact newline_not_mem_optKV _ _ (by decide) _ h
    · exact newline_not_mem_optKV _ _ (by decide) _ h
    · exact newline_not_mem_optKV _ _ (by decide) _ h

theorem newline_not_mem_syncLines (sy : Option SyncCliCommand) :
    ∀ l ∈ syncLines sy, '\n' ∉ l := by
  cases sy with
  | none => simp [syncLines]
  | some ss =>
    intro l hl
    simp only [syncLines, List.mem_cons, List.mem_append] at hl
    rcases hl with h | h | h | h
    · subst h; exact newline_not_mem_renderHeader _ (by decide)
    · subst h; exact newline_not_mem_renderKV _ _ (by decide)
    · exact newline_not_mem_optKV _ _ (by decide) _ h
    · exact newline_not_mem_programsLines _ _ h

theorem newline_not_mem_ghLines (g : Option Gh) :
    ∀ l ∈ ghLines g, '\n' ∉ l := by
  cases g with
  | none => simp [ghLines]
  | some gg =>
    intro l hl
    simp only [ghLines, List.mem_cons, List.mem_append] at hl
    rcases hl with h | (h | h) | h
    · subst h; exact newline_not_mem_renderHeader _ (by decide)
    · exact newline_not_mem_optKV _ _ (by decide) _ h
    · exact newline_not_mem_optKV _ _ (by decide) _ h
    · exact newline_not_mem_optKV _ _ (by decide) _ h

theorem newline_not_mem_musicLines (mu : Option MusicCliCommand) :
    ∀ l ∈ musicLines mu, '\n' ∉ l := by
  cases mu with
  | none => simp [musicLines]
  | some mm =>
    intro l hl
    simp only [musicLines, List.mem_cons, List.mem_append] at hl
    rcases hl with h | h | h
    · subst h; exact newline_not_mem_renderHeader _ (by decide)
    · exact newline_not_mem_optKV _ _ (by decide) _ h
    · exact newline_not_mem_optKV _ _ (by decide) _ h

theorem newline_not_mem_configLines (cd : ConfigData) :
    ∀ l ∈ configLines cd, '\n' ∉ l := by
  intro l hl
  simp only [configLines, List.mem_append] at hl
  rcases hl with ((hl | hl) | hl) | hl
  · exact newline_not_mem_moviesLines _ _ hl
  · exact newline_not_mem_syncLines _ _ hl
  · exact newline_not_mem_ghLines _ _ hl
  · exact newline_not_mem_musicLines _ _ hl

theorem processLines_configLines (cd : ConfigData) :
    ∃ sec2, processLines (configLines cd) none ⟨none, none, none, none⟩ =
      .ok (sec2, ⟨cd.movies,
        cd.sync.map (fun s => ⟨some s.file_paths, s.save_folder_path, s.programs⟩),
        cd.gh, cd.music⟩) := by
  rcases cd with ⟨m, sy, g, mu⟩
  simp only [configLines]
  have step1 : ∃ s1, processLines (moviesLines m) none ⟨none, none, none, none⟩ =
      .ok (s1, ⟨m, none, none, none⟩) := by
    cases m with
    | none => exact ⟨none, by simp [moviesLines, processLines_nil]⟩
    | some mm => exact ⟨some "movies",
        by rw [processLines_moviesLines_some mm _ _ rfl]⟩
  obtain ⟨s1, h1⟩ := step1
  have step2 : ∃ s2, processLines (syncLines sy) s1 ⟨m, none, none, none⟩ =
      .ok (s2, ⟨m,
        sy.map (fun s => ⟨some s.file_paths, s.save_folder_path, s.programs⟩),
        none, none⟩) := by
    cases sy with
    | none => exact ⟨s1, by simp [syncLines, processLines_nil]⟩
    | some ss =>
      obtain ⟨s2, h2⟩ := processLines_syncLines_some ss s1 ⟨m, none, none, none⟩ rfl
      exact ⟨s2, by rw [h2]; rfl⟩
  obtain ⟨s2, h2⟩ := step2
  have step3 : ∃ s3, processLines (ghLines g) s2 (⟨m,
      sy.map (fun s => ⟨some s.file_paths, s.save_folder_path, s.programs⟩),
      none, none⟩ : RawConfig) =
      .ok (s3, ⟨m,
        sy.map (fun s => ⟨some s.file_paths, s.save_folder_path, s.programs⟩),
        g, none⟩) := by
    cases g with
    | none => exact ⟨s2, by simp [ghLines, processLines_nil]⟩
    | some gg => exact ⟨some "gh",
        by rw [processLines_ghLines_some gg _ _ rfl]⟩
  obtain ⟨s3, h3⟩ := step3
  have step4 : ∃ s4, processLines (musicLines mu) s3 (⟨m,
      sy.map (fun s => ⟨some s.file_paths, s.save_folder_path, s.programs⟩),
      g, none⟩ : RawConfig) =
      .ok (s4, ⟨m,
        sy.map (fun s => ⟨some s.file_paths, s.save_folder_path, s.programs⟩),
        g, mu⟩) := by
    cases mu with
    | none => exact ⟨s3, by simp [musicLines, processLines_nil]⟩
    | some mm => exact ⟨some "music",
        by rw [processLines_musicLines_some mm _ _ rfl]⟩
  obtain ⟨s4, h4⟩ := step4
  refine ⟨s4, ?_⟩
  rw [processLines_append, processLines_append, processLines_append, h1]
  simp only [Except.bind]
  rw [h2]
  simp only [Except.bind]
  rw [h3]
  simp only [Except.bind]
  rw [h4]

/-- The serialization of a configuration parses back to an equal
configuration: the round-trip property that C6 asserts and that the file
rewrite in the get-or-prompt accessor relies on. -/
theorem toml_roundtrip (cd : ConfigData) :
    toml_from_str (toml_to_string cd) = .ok cd := by
  obtain ⟨sec2, hproc⟩ := processLines_configLines cd
  by_cases hnil : configLines cd = []
  · rcases cd with ⟨m, sy, g, mu⟩
    simp only [configLines, List.append_eq_nil] at hnil
    obtain ⟨⟨⟨hm, hs⟩, hg⟩, hmu⟩ := hnil
    have hm2 : m = none := by cases m with
      | none => rfl
      | some mm => simp [moviesLines] at hm
    have hs2 : sy = none := by cases sy with
      | none => rfl
      | some ss => simp [syncLines] at hs
    have hg2 : g = none := by cases g with
      | none => rfl
      | some gg => simp [ghLines] at hg
    have hmu2 : mu = none := by cases mu with
      | none => rfl
      | some mm => simp [musicLines] at hmu
    subst hm2 hs2 hg2 hmu2
    rfl
  · have hdata : (toml_to_string cd).data =
        List.intercalate ['\n'] (configLines cd) := rfl
    have hsplit : (List.intercalate ['\n'] (configLines cd)).splitOn '\n' =
        configLines cd :=
      List.splitOn_intercalate (configLines cd) '\n' (newline_not_mem_configLines cd) hnil
    rw [toml_from_str, hdata, hsplit, hproc]
    rcases cd with ⟨m, sy, g, mu⟩
    cases sy <;> simp [finalize]

/-- C7: for a movie list whose ratings are `[1.0, 2.0, 3.0]`, `get_stats`
returns the true minimum and maximum of the `date` fields, mean rating `2`,
and median rating `2` (the element at index `len / 2` of the sorted
ratings). -/
theorem get_stats_ratings_one_two_three (ms : AllMovies)
    (h : ms.movies.map (·.note) = [1, 2, 3]) :
    ∃ mn mx : ℕ,
      Movies.get_stats ms = some (mn, mx, 2, 2) ∧
      mn ∈ ms.movies.map (·.date) ∧ (∀ d ∈ ms.movies.map (·.date), mn ≤ d) ∧
      mx ∈ ms.movies.map (·.date) ∧ (∀ d ∈ ms.movies.map (·.date), d ≤ mx) := by
  have hlen : ms.movies.length = 3 := by
    have := congrArg List.length h
    simpa using this
  have hdlen : (ms.movies.map (·.date)).length = 3 := by simpa using hlen
  rcases hmin : (ms.movies.map (·.date)).min? with _ | mn
  · rw [List.min?_eq_none_iff] at hmin
    rw [hmin] at hdlen
    simp at hdlen
  rcases hmax : (ms.movies.map (·.date)).max? with _ | mx
  · rw [List.max?_eq_none_iff] at hmax
    rw [hmax] at hdlen
    simp at hdlen
  obtain ⟨hminMem, hminLe⟩ := List.min?_eq_some_iff'.mp hmin
  obtain ⟨hmaxMem, hmaxLe⟩ := List.max?_eq_some_iff'.mp hmax
  refine ⟨mn, mx, ?_, hminMem, hminLe, hmaxMem, hmaxLe⟩
  have hsorted : (([1, 2, 3] : List ℚ).mergeSort (fun a b => a ≤ b)) =
      [1, 2, 3] := List.mergeSort_eq_self (by decide)
  simp only [Movies.get_stats, h, hmin, hmax, hlen, hsorted]
  norm_num

/-- Witness for C7 at a concrete three-movie list. -/
theorem get_stats_ratings_one_two_three_witness :
    ∃ mn mx : ℕ,
      Movies.get_stats ⟨[⟨"a", 1, 2000, "", none, none⟩,
        ⟨"b", 2, 1990, "", none, none⟩,
        ⟨"c", 3, 2010, "", none, none⟩]⟩ = some (mn, mx, 2, 2) ∧
      mn ∈ ([2000, 1990, 2010] : List ℕ) ∧ (∀ d ∈ ([2000, 1990, 2010] : List ℕ), mn ≤ d) ∧
      mx ∈ ([2000, 1990, 2010] : List ℕ) ∧ (∀ d ∈ ([2000, 1990, 2010] : List ℕ), d ≤ mx) := by
  simpa using get_stats_ratings_one_two_three
    ⟨[⟨"a", 1, 2000, "", none, none⟩,
      ⟨"b", 2, 1990, "", none, none⟩,
      ⟨"c", 3, 2010, "", none, none⟩]⟩ (by norm_num)

/-- C10: `get_stats` is total exactly on non-empty movie lists: for a
non-empty list the median index `len / 2` into the sorted ratings is in
bounds and the computation succeeds; on the empty list the median access
is out of bounds (the computation, i.e. the Rust indexing panic, yields
`none`). -/
theorem get_stats_total_iff_nonempty (ms : AllMovies) :
    (ms.movies ≠ [] →
      ((ms.movies.map (·.note)).mergeSort (fun a b => a ≤ b)).length / 2 <
        ((ms.movies.map (·.note)).mergeSort (fun a b => a ≤ b)).length ∧
      (Movies.get_stats ms).isSome = true) ∧
    (ms.movies = [] → Movies.get_stats ms = none) := by
  constructor
  · intro hne
    have hpos : 0 < ((ms.movies.map (·.note)).mergeSort (fun a b => a ≤ b)).length := by
      rw [List.length_mergeSort, List.length_map]
      exact List.length_pos.mpr hne
    have hidx := Nat.div_lt_self hpos Nat.one_lt_two
    refine ⟨hidx, ?_⟩
    simp only [Movies.get_stats]
    rw [List.getElem?_eq_getElem hidx]
    simp
  · intro hnil
    simp [Movies.get_stats, hnil]

/-- Witness for C10: both branches discharged on concrete lists. -/
theorem get_stats_total_iff_nonempty_witness :
    ((Movies.get_stats ⟨[⟨"a", 5, 1999, "", none, none⟩]⟩).isSome = true) ∧
    Movies.get_stats ⟨[]⟩ = none := by
  refine ⟨((get_stats_total_iff_nonempty ⟨[⟨"a", 5, 1999, "", none, none⟩]⟩).1
    (by simp)).2, (get_stats_total_iff_nonempty ⟨[]⟩).2 rfl⟩

/-! ## Helper lemmas: the interactive path-input loop -/

theorem input_path_go_sentinel_eq (ex : List String) (stdin : List String) :
    input_path_go ex "\\" stdin = (stdin, [], .error (GeneralError.new "no path")) := by
  cases stdin <;> rw [input_path_go, if_pos rfl]

theorem input_path_go_found_eq (ex : List String) (s : String) (stdin : List String)
    (hs : ¬s = "\\") (hc : ex.contains s = true) :
    input_path_go ex s stdin = (stdin, [], .ok (s, s)) := by
  cases stdin <;> rw [input_path_go, if_neg hs, if_pos hc]

theorem input_path_go_miss_eq (ex : List String) (s s2 : String) (rest : List String)
    (hs : ¬s = "\\") (hc : ex.contains s = false) :
    input_path_go ex s (s2 :: rest) =
      ((input_path_go ex s2 rest).1,
        .print pathNotExistMsg :: .readLine s2 :: (input_path_go ex s2 rest).2.1,
        (input_path_go ex s2 rest).2.2) := by
  rw [input_path_go, if_neg hs, if_neg (show ¬ex.contains s = true by rw [hc]; simp)]

theorem input_path_go_sentinel (ex : List String) :
    ∀ (pre : List String) (s : String) (stdin rest : List String),
      stdin = pre ++ "\\" :: rest →
      (∀ l ∈ s :: pre, ex.contains l = false) →
      ∃ stdin2 evs, input_path_go ex s stdin =
        (stdin2, evs, .error (GeneralError.new "no path")) := by
  intro pre
  induction pre with
  | nil =>
    intro s stdin rest hst hall
    by_cases hs : s = "\\"
    · subst hs
      rw [input_path_go_sentinel_eq]
      exact ⟨stdin, [], rfl⟩
    · have hcs : ex.contains s = false := hall s (by simp)
      subst hst
      rw [List.nil_append, input_path_go_miss_eq ex s _ _ hs hcs,
        input_path_go_sentinel_eq]
      exact ⟨rest, _, rfl⟩
  | cons p ps ih =>
    intro s stdin rest hst hall
    by_cases hs : s = "\\"
    · subst hs
      rw [input_path_go_sentinel_eq]
      exact ⟨stdin, [], rfl⟩
    · have hcs : ex.contains s = false := hall s (by simp)
      obtain ⟨st2, evs, hr⟩ := ih p (ps ++ "\\" :: rest) rest rfl
        (fun l hl => hall l (by simpa using Or.inr (by simpa using hl)))
      subst hst
      rw [List.cons_append, input_path_go_miss_eq ex s _ _ hs hcs, hr]
      exact ⟨st2, _, rfl⟩

theorem input_path_go_success (ex : List String) (good : String) (rest : List String)
    (hgood : ex.contains good = true) (hgs : ¬good = "\\") :
    ∀ (pre : List String) (s : String) (stdin : List String),
      s :: stdin = pre ++ good :: rest →
      (∀ l ∈ pre, ex.contains l = false ∧ ¬l = "\\") →
      input_path_go ex s stdin =
        (rest, (match pre with
          | [] => []
          | _ :: ps => .print pathNotExistMsg :: repromptEvents ps good),
          .ok (good, good)) := by
  intro pre
  induction pre with
  | nil =>
    intro s stdin hst _
    simp only [List.nil_append, List.cons.injEq] at hst
    obtain ⟨rfl, rfl⟩ := hst
    rw [input_path_go_found_eq _ _ _ hgs hgood]
  | cons p ps ih =>
    intro s stdin hst hall
    simp only [List.cons_append, List.cons.injEq] at hst
    obtain ⟨rfl, hst⟩ := hst
    obtain ⟨hcp, hps⟩ := hall s (by simp)
    rcases hsh : ps ++ good :: rest with _ | ⟨s2, st2⟩
    · exact absurd hsh (by simp)
    · have hrec := ih s2 st2 (by rw [hsh]) (fun l hl => hall l (by simp [hl]))
      subst hst
      rw [hsh, input_path_go_miss_eq ex s s2 st2 hps hcp, hrec]
      cases hqs : ps with
      | nil =>
        rw [hqs] at hsh
        simp only [List.nil_append, List.cons.injEq] at hsh
        obtain ⟨rfl, rfl⟩ := hsh
        rfl
      | cons q qs =>
        rw [hqs] at hsh
        simp only [List.cons_append, List.cons.injEq] at hsh
        obtain ⟨rfl, rfl⟩ := hsh
        rfl

/-- C4: when the requested section exists and its path field is set, the
get-or-prompt accessor returns the stored path immediately: the world is
untouched (no input consumed, no event emitted, no file write) and the
configuration is returned unchanged. -/
theorem resolveField_set_path (f : FieldIx) (cfg : Config) (w : World) (p : String)
    (h : getField f cfg.config_data = some p) :
    resolveField f cfg w = ((cfg, w), .ok p) := by
  simp [resolveField, h]

/-- Witness for C4 at a concrete configuration with `movies.file_path`
set. -/
theorem resolveField_set_path_witness :
    resolveField .movies_file_path
      ⟨0, true, "c", ⟨some ⟨some "/m", none⟩, none, none, none⟩⟩
      ⟨["x"], [], none, []⟩ =
    ((⟨0, true, "c", ⟨some ⟨some "/m", none⟩, none, none, none⟩⟩,
      ⟨["x"], [], none, []⟩), .ok "/m") :=
  resolveField_set_path _ _ _ _ rfl

/-- C3: when the field is unset and the input script reaches the
single-backslash sentinel before any existing path, resolution returns the
`no path` cancellation error, the in-memory configuration is returned
unchanged, and the configuration file is not rewritten. -/
theorem resolveField_sentinel_no_mutation (f : FieldIx) (cfg : Config) (w : World)
    (pre rest : List String)
    (hf : getField f cfg.config_data = none)
    (hstdin : w.stdin = pre ++ "\\" :: rest)
    (hpre : ∀ l ∈ pre, l ∉ w.existing) :
    ∃ w2, resolveField f cfg w = ((cfg, w2), .error (GeneralError.new "no path")) ∧
      w2.file = w.file := by
  have hpre2 : ∀ l ∈ pre, w.existing.contains l = false := by
    intro l hl
    have := hpre l hl
    simpa using this
  cases hp : pre with
  | nil =>
    rw [hp] at hstdin
    simp only [List.nil_append] at hstdin
    simp only [resolveField, hf, input_path.eq_def, println, hstdin,
      input_path_go_sentinel_eq]
    exact ⟨_, rfl, rfl⟩
  | cons p ps =>
    rw [hp] at hstdin hpre2
    simp only [List.cons_append] at hstdin
    obtain ⟨st2, evs, hr⟩ := input_path_go_sentinel w.existing ps p
      (ps ++ "\\" :: rest) rest rfl (fun l hl => hpre2 l hl)
    simp only [resolveField, hf, input_path.eq_def, println, hstdin, hr]
    exact ⟨_, rfl, rfl⟩

/-- Witness for C3: empty configuration, the sentinel as the first input
line. -/
theorem resolveField_sentinel_no_mutation_witness :
    ∃ w2, resolveField .movies_file_path ⟨0, true, "c", ⟨none, none, none, none⟩⟩
        ⟨["\\"], [], some "old", []⟩ =
      ((⟨0, true, "c", ⟨none, none, none, none⟩⟩, w2),
        .error (GeneralError.new "no path")) ∧
      w2.file = some "old" :=
  resolveField_sentinel_no_mutation .movies_file_path _ _ [] [] rfl rfl
    (by simp)

/-- C5: an input script of non-existent (non-sentinel) paths followed by
an existing path makes `input_path` re-prompt once per bad line and
finally return the existing path, and only that path: exactly the lines up
to and including the good one are consumed. -/
theorem input_path_reprompt_loop (w : World) (pre : List String) (good : String)
    (rest : List String)
    (hstdin : w.stdin = pre ++ good :: rest)
    (hpre : ∀ l ∈ pre, l ∉ w.existing ∧ ¬l = "\\")
    (hgood : good ∈ w.existing) (hgs : ¬good = "\\") :
    input_path w =
      ({ w with stdin := rest, events := w.events ++ repromptEvents pre good },
        .ok (good, good)) := by
  have hcg : w.existing.contains good = true := by simpa using hgood
  have hpre2 : ∀ l ∈ pre, w.existing.contains l = false ∧ ¬l = "\\" := by
    intro l hl
    obtain ⟨h1, h2⟩ := hpre l hl
    exact ⟨by simpa using h1, h2⟩
  cases hp : pre with
  | nil =>
    rw [hp] at hstdin
    simp only [List.nil_append] at hstdin
    simp only [input_path.eq_def, hstdin,
      input_path_go_success w.existing good rest hcg hgs [] good rest rfl (by simp)]
    rfl
  | cons p ps =>
    rw [hp] at hstdin hpre2
    simp only [List.cons_append] at hstdin
    simp only [input_path.eq_def, hstdin,
      input_path_go_success w.existing good rest hcg hgs (p :: ps) p
        (ps ++ good :: rest) rfl hpre2]
    rfl

/-- Witness for C5: two bad lines, then an existing path. -/
theorem input_path_reprompt_loop_witness :
    input_path ⟨["/bad1", "/bad2", "/ok", "later"], ["/ok"], none, []⟩ =
      (⟨["later"], ["/ok"], none,
        [.readLine "/bad1", .print pathNotExistMsg, .readLine "/bad2",
          .print pathNotExistMsg, .readLine "/ok"]⟩, .ok ("/ok", "/ok")) := by
  have h := input_path_reprompt_loop ⟨["/bad1", "/bad2", "/ok", "later"], ["/ok"], none, []⟩
    ["/bad1", "/bad2"] "/ok" ["later"] rfl (by decide) (by decide) (by decide)
  simpa [repromptEvents] using h

/-- C2 at the failing input (the nested form destroys sibling fields):
starting from a configuration whose `sync` section has `file_paths`
and `save_folder_path` set but no `programs` sub-record, resolving the
missing `cargo_programs` path succeeds with the entered path, yet the
updated in-memory configuration has lost `sync.file_paths` and
`sync.save_folder_path`: the `_` arm of `config_sub_path!` replaces the
whole section with a `Default::default()`-based value. -/
theorem config_sub_path_wipes_sync_fields :
    (getField .sub_cargo_programs
      (⟨none, some ⟨["/a"], some "/save", none⟩, none, none⟩ : ConfigData) = none) ∧
    (getField .sync_save_folder_path
      (⟨none, some ⟨["/a"], some "/save", none⟩, none, none⟩ : ConfigData) = some "/save") ∧
    (resolveField .sub_cargo_programs
      ⟨0, true, "cfg", ⟨none, some ⟨["/a"], some "/save", none⟩, none, none⟩⟩
      ⟨["/tmp/x"], ["/tmp/x"], none, []⟩).2 = .ok "/tmp/x" ∧
    (resolveField .sub_cargo_programs
      ⟨0, true, "cfg", ⟨none, some ⟨["/a"], some "/save", none⟩, none, none⟩⟩
      ⟨["/tmp/x"], ["/tmp/x"], none, []⟩).1.1.config_data.sync =
      some ⟨[], none, some ⟨some "/tmp/x", none, none⟩⟩ :=
  ⟨rfl, rfl, rfl, rfl⟩

/-! ## Helper lemmas: the aggregate sync spawns workers only after the
interactive phase -/

theorem spawnFree_refl (w : World) : SpawnFree w w :=
  ⟨[], by simp, by simp⟩

theorem spawnFree_trans {w1 w2 w3 : World} (h1 : SpawnFree w1 w2)
    (h2 : SpawnFree w2 w3) : SpawnFree w1 w3 := by
  obtain ⟨a, ha, hna⟩ := h1
  obtain ⟨b, hb, hnb⟩ := h2
  exact ⟨a ++ b, by rw [hb, ha, List.append_assoc], by simp [hna, hnb]⟩

theorem input_path_go_no_spawn (ex : List String) :
    ∀ (stdin : List String) (s : String),
      Event.spawn ∉ (input_path_go ex s stdin).2.1 := by
  intro stdin
  induction stdin with
  | nil =>
    intro s
    by_cases hs : s = "\\"
    · subst hs
      rw [input_path_go_sentinel_eq]
      simp
    · by_cases hc : ex.contains s = true
      · rw [input_path_go_found_eq _ _ _ hs hc]
        simp
      · rw [input_path_go, if_neg hs, if_neg hc]
        simp
  | cons s2 rest ih =>
    intro s
    by_cases hs : s = "\\"
    · subst hs
      rw [input_path_go_sentinel_eq]
      simp
    · by_cases hc : ex.contains s = true
      · rw [input_path_go_found_eq _ _ _ hs hc]
        simp
      · have hcf : ex.contains s = false := by simpa using hc
        rw [input_path_go_miss_eq _ _ _ _ hs hcf]
        simp [ih]

theorem input_path_spawnfree (w : World) : SpawnFree w (input_path w).1 := by
  rcases hst : w.stdin with _ | ⟨s, rest⟩ <;>
    simp only [input_path.eq_def, hst]
  · exact spawnFree_refl w
  · exact ⟨_, rfl, by simp [input_path_go_no_spawn]⟩

theorem resolveField_spawnfree (f : FieldIx) (cfg : Config) (w : World) :
    SpawnFree w (resolveField f cfg w).1.2 := by
  rcases hg : getField f cfg.config_data with _ | p
  · rcases hip : input_path (println (promptMsg f) w) with ⟨w2, r⟩
    have hsf := input_path_spawnfree (println (promptMsg f) w)
    rw [hip] at hsf
    obtain ⟨d, hd, hn⟩ := hsf
    simp only [println] at hd
    simp only [resolveField, hg, hip]
    cases r with
    | error e =>
      exact ⟨Event.print (promptMsg f) :: d, by simp [hd], by simp [hn]⟩
    | ok pr =>
      rcases pr with ⟨fp, ps⟩
      refine ⟨Event.print (promptMsg f) :: d ++
        [Event.writeConfig (toml_to_string (setField f ps cfg.config_data))], ?_, ?_⟩
      · simp [Config.save, hd]
      · simp [hn]
  · simp only [resolveField, hg]
    exact spawnFree_refl w

theorem resolveFieldUnit_spawnfree (f : FieldIx) (cfg : Config) (w : World) :
    SpawnFree w (resolveFieldUnit f cfg w).1.2 := by
  rcases hr : resolveField f cfg w with ⟨⟨c, w2⟩, res⟩
  have hsf := resolveField_spawnfree f cfg w
  rw [hr] at hsf
  simp only [resolveFieldUnit, hr]
  cases res <;> exact hsf

theorem andThen_spawnfree (w : World)
    (r : (Config × World) × Except GeneralError Unit)
    (k : Config → World → (Config × World) × Except GeneralError Unit)
    (h1 : SpawnFree w r.1.2)
    (h2 : ∀ c wx, SpawnFree wx (k c wx).1.2) :
    SpawnFree w (andThen r k).1.2 := by
  rcases r with ⟨⟨c, wx⟩, res⟩
  cases res with
  | error e => exact h1
  | ok _ => exact spawnFree_trans h1 (h2 c wx)

theorem input_no_spawnfree (q : String) (w : World) :
    SpawnFree w (input_no q w).1 := by
  rcases hst : w.stdin with _ | ⟨s, rest⟩ <;>
    simp only [input_no, input_yes, input, println, hst]
  · exact ⟨[Event.print (q ++ " (y/n):")], rfl, by simp⟩
  · exact ⟨[Event.print (q ++ " (y/n):"), Event.readLine s], by simp, by simp⟩

theorem pre_sync_programs_one_spawnfree (fld : FieldIx) (q : String)
    (proj : ProgramsConfig → Option String) (cfg : Config) (w : World) :
    SpawnFree w (pre_sync_programs_one fld q proj cfg w).1.2 := by
  rw [pre_sync_programs_one]
  split
  · exact spawnFree_refl w
  · split
    · split
      · split
        · split
          · rename_i w1 e heq
            have hsf := input_no_spawnfree q w
            rw [heq] at hsf
            exact hsf
          · rename_i w1 b heq
            have hsf := input_no_spawnfree q w
            rw [heq] at hsf
            split
            · exact hsf
            · exact spawnFree_trans hsf (resolveFieldUnit_spawnfree _ _ _)
        · exact resolveFieldUnit_spawnfree _ _ _
      · exact resolveFieldUnit_spawnfree _ _ _
    · exact resolveFieldUnit_spawnfree _ _ _

theorem pre_sync_movies_spawnfree (cfg : Config) (w : World) :
    SpawnFree w (pre_sync_movies cfg w).1.2 :=
  andThen_spawnfree _ _ _ (resolveFieldUnit_spawnfree _ _ _)
    (fun _ _ => resolveFieldUnit_spawnfree _ _ _)

theorem pre_sync_github_spawnfree (cfg : Config) (w : World) :
    SpawnFree w (pre_sync_github cfg w).1.2 :=
  andThen_spawnfree _ _ _ (resolveFieldUnit_spawnfree _ _ _)
    (fun _ _ => resolveFieldUnit_spawnfree _ _ _)

theorem pre_sync_programs_spawnfree (cfg : Config) (w : World) :
    SpawnFree w (pre_sync_programs cfg w).1.2 :=
  andThen_spawnfree _ _ _ (pre_sync_programs_one_spawnfree _ _ _ _ _)
    (fun c1 w1 => andThen_spawnfree _ _ _ (pre_sync_programs_one_spawnfree _ _ _ _ _)
      (fun c2 w2 => pre_sync_programs_one_spawnfree _ _ _ _ _))

theorem sync_all_pre_spawnfree (cfg : Config) (w : World) :
    SpawnFree w (sync_all_pre cfg w).1.2 := by
  rw [sync_all_pre]
  apply andThen_spawnfree
  · by_cases h : cfg.config_data.movies.isSome
    · rw [if_pos h]
      exact pre_sync_movies_spawnfree _ _
    · rw [if_neg h]
      exact spawnFree_refl w
  · intro c1 w1
    apply andThen_spawnfree
    · by_cases h : c1.config_data.sync.isSome
      · rw [if_pos h]
        exact andThen_spawnfree _ _ _ (resolveFieldUnit_spawnfree _ _ _)
          (fun _ _ => pre_sync_programs_spawnfree _ _)
      · rw [if_neg h]
        exact spawnFree_refl w1
    · intro c2 w2
      by_cases h : c2.config_data.gh.isSome
      · rw [if_pos h]
        exact pre_sync_github_spawnfree _ _
      · rw [if_neg h]
        exact spawnFree_refl w2

theorem movies_sync_job_no_io (cfg : Config) :
    ∀ e ∈ (movies_sync_job cfg).1,
      (∀ s, e ≠ .readLine s) ∧ (∀ c, e ≠ .writeConfig c) := by
  intro e he
  rcases h1 : get_config_path .movies_file_path cfg with er | p1 <;>
    simp only [movies_sync_job, h1] at he
  · simp at he
  · rcases h2 : get_config_path .movies_public_file_path cfg with er | p2 <;>
      simp only [h2] at he
    · simp at he
    · simp only [List.mem_singleton] at he
      subst he
      simp

theorem save_files_no_io (cfg : Config) :
    ∀ e ∈ (save_files cfg).1,
      (∀ s, e ≠ .readLine s) ∧ (∀ c, e ≠ .writeConfig c) := by
  intro e he
  rcases h1 : get_config_path .sync_save_folder_path cfg with er | folder <;>
    simp only [save_files, h1] at he
  · simp at he
  · simp only [List.mem_cons, List.mem_map] at he
    rcases he with rfl | ⟨p, _, rfl⟩ <;> simp

theorem sync_programs_sub_no_io (f : FieldIx) (cfg : Config) (job : List Event)
    (hj : job = [] ∨ ∃ p, job = [Event.writeData p]) :
    ∀ e ∈ job, (∀ s, e ≠ .readLine s) ∧ (∀ c, e ≠ .writeConfig c) := by
  intro e he
  rcases hj with rfl | ⟨p, rfl⟩
  · simp at he
  · simp only [List.mem_singleton] at he
    subst he
    simp

theorem sync_programs_cargo_shape (cfg : Config) :
    (sync_programs_cargo cfg).1 = [] ∨
      ∃ p, (sync_programs_cargo cfg).1 = [Event.writeData p] := by
  rcases h : get_config_path .sub_cargo_programs cfg with er | p <;>
    simp [sync_programs_cargo, h]

theorem sync_programs_nix_shape (cfg : Config) :
    (sync_programs_nix cfg).1 = [] ∨
      ∃ p, (sync_programs_nix cfg).1 = [Event.writeData p] := by
  rcases h : get_config_path .sub_nix cfg with er | p <;>
    simp [sync_programs_nix, h]

theorem sync_programs_vscode_shape (cfg : Config) :
    (sync_programs_vscode cfg).1 = [] ∨
      ∃ p, (sync_programs_vscode cfg).1 = [Event.writeData p] := by
  rcases h : get_config_path .sub_vscode_extensions cfg with er | p <;>
    simp [sync_programs_vscode, h]

theorem sync_programs_no_io (cfg : Config) :
    ∀ e ∈ (sync_programs cfg).1,
      (∀ s, e ≠ .readLine s) ∧ (∀ c, e ≠ .writeConfig c) := by
  intro e he
  rcases hc : sync_programs_cargo cfg with ⟨e1, r1⟩
  rcases hn : sync_programs_nix cfg with ⟨e2, r2⟩
  rcases hv : sync_programs_vscode cfg with ⟨e3, r3⟩
  have hc1 := sync_programs_cargo_shape cfg
  have hn1 := sync_programs_nix_shape cfg
  have hv1 := sync_programs_vscode_shape cfg
  rw [hc] at hc1
  rw [hn] at hn1
  rw [hv] at hv1
  simp only [sync_programs, hc, hn, hv] at he
  cases r1 with
  | error er =>
    simp only [List.mem_cons] at he
    rcases he with rfl | he
    · simp
    · exact sync_programs_sub_no_io .sub_cargo_programs cfg e1 hc1 e he
  | ok _ =>
    cases r2 with
    | error er =>
      simp only [List.mem_cons, List.mem_append] at he
      rcases he with rfl | he | he
      · simp
      · exact sync_programs_sub_no_io .sub_cargo_programs cfg e1 hc1 e he
      · exact sync_programs_sub_no_io .sub_nix cfg e2 hn1 e he
    | ok _ =>
      simp only [List.mem_cons, List.mem_append] at he
      rcases he with rfl | (he | he) | he
      · simp
      · exact sync_programs_sub_no_io .sub_cargo_programs cfg e1 hc1 e he
      · exact sync_programs_sub_no_io .sub_nix cfg e2 hn1 e he
      · exact sync_programs_sub_no_io .sub_vscode_extensions cfg e3 hv1 e he

theorem save_pulls_job_no_io (cfg : Config) :
    ∀ e ∈ (save_pulls_job cfg).1,
      (∀ s, e ≠ .readLine s) ∧ (∀ c, e ≠ .writeConfig c) := by
  intro e he
  rcases h : get_config_path .gh_file_pulls cfg with er | p <;>
    simp only [save_pulls_job, h] at he
  · simp at he
  · simp only [List.mem_singleton] at he
    subst he
    simp

theorem save_projects_job_no_io (cfg : Config) :
    ∀ e ∈ (save_projects_job cfg).1,
      (∀ s, e ≠ .readLine s) ∧ (∀ c, e ≠ .writeConfig c) := by
  intro e he
  rcases h : get_config_path .gh_file_projects cfg with er | p <;>
    simp only [save_projects_job, h] at he
  · simp at he
  · simp only [List.mem_singleton] at he
    subst he
    simp

theorem sync_all_workers_no_io (cfg : Config) :
    ∀ e ∈ sync_all_workers cfg,
      (∀ s, e ≠ .readLine s) ∧ (∀ c, e ≠ .writeConfig c) := by
  intro e he
  simp only [sync_all_workers, List.mem_append] at he
  rcases he with (he | he) | he
  · by_cases h : cfg.config_data.movies.isSome
    · rw [if_pos h] at he
      exact movies_sync_job_no_io cfg e he
    · rw [if_neg h] at he
      simp at he
  · by_cases h : cfg.config_data.sync.isSome
    · rw [if_pos h] at he
      rcases List.mem_append.mp he with he | he
      · exact save_files_no_io cfg e he
      · exact sync_programs_no_io cfg e he
    · rw [if_neg h] at he
      simp at he
  · by_cases h : cfg.config_data.gh.isSome
    · rw [if_pos h] at he
      rcases List.mem_append.mp he with he | he
      · exact save_pulls_job_no_io cfg e he
      · exact save_projects_job_no_io cfg e he
    · rw [if_neg h] at he
      simp at he

/-- C9: in the aggregate `sync_all` command, every configuration prompt
and every configuration-file write happens before the parallel jobs are
spawned.  On a successful run starting from a world whose trace carries no
spawn marker, the final trace is a spawn-free prefix (the sequential
pre-resolution phase, which holds all `readLine` prompts and
`writeConfig` saves) followed by the single spawn marker and then the
worker events; no worker event reads a line or writes the configuration
file, and a worker whose path is unset fails with a `get_config_path!`
error emitting no events at all (in particular, no prompt). -/
theorem sync_all_prompts_before_spawn (cfg : Config) (w : World)
    (hw : Event.spawn ∉ w.events) {c2 : Config} {w2 : World}
    (h : sync_all cfg w = ((c2, w2), Except.ok ())) :
    (∃ evpre, w2.events = evpre ++ [Event.spawn] ++ sync_all_workers c2 ∧
        Event.spawn ∉ evpre) ∧
      (∀ e ∈ sync_all_workers c2,
        (∀ s, e ≠ Event.readLine s) ∧ (∀ c, e ≠ Event.writeConfig c)) ∧
      (∀ c3 : Config,
        (getField .movies_file_path c3.config_data = none →
          ∃ e, movies_sync_job c3 = ([], Except.error e)) ∧
        (getField .sync_save_folder_path c3.config_data = none →
          ∃ e, save_files c3 = ([], Except.error e)) ∧
        (getField .sub_cargo_programs c3.config_data = none →
          ∃ e, sync_programs_cargo c3 = ([], Except.error e)) ∧
        (getField .gh_file_pulls c3.config_data = none →
          ∃ e, save_pulls_job c3 = ([], Except.error e)) ∧
        (getField .gh_file_projects c3.config_data = none →
          ∃ e, save_projects_job c3 = ([], Except.error e))) := by
  have hjobs : ∀ c3 : Config,
      (getField .movies_file_path c3.config_data = none →
        ∃ e, movies_sync_job c3 = ([], Except.error e)) ∧
      (getField .sync_save_folder_path c3.config_data = none →
        ∃ e, save_files c3 = ([], Except.error e)) ∧
      (getField .sub_cargo_programs c3.config_data = none →
        ∃ e, sync_programs_cargo c3 = ([], Except.error e)) ∧
      (getField .gh_file_pulls c3.config_data = none →
        ∃ e, save_pulls_job c3 = ([], Except.error e)) ∧
      (getField .gh_file_projects c3.config_data = none →
        ∃ e, save_projects_job c3 = ([], Except.error e)) := by
    intro c3
    refine ⟨fun hn => ⟨GeneralError.new ("The path " ++ fieldDesc .movies_file_path ++ " is not set"), ?_⟩,
      fun hn => ⟨GeneralError.new ("The path " ++ fieldDesc .sync_save_folder_path ++ " is not set"), ?_⟩,
      fun hn => ⟨GeneralError.new ("The path " ++ fieldDesc .sub_cargo_programs ++ " is not set"), ?_⟩,
      fun hn => ⟨GeneralError.new ("The path " ++ fieldDesc .gh_file_pulls ++ " is not set"), ?_⟩,
      fun hn => ⟨GeneralError.new ("The path " ++ fieldDesc .gh_file_projects ++ " is not set"), ?_⟩⟩
    · simp [movies_sync_job, get_config_path, hn]
    · simp [save_files, get_config_path, hn]
    · simp [sync_programs_cargo, get_config_path, hn]
    · simp [save_pulls_job, get_config_path, hn]
    · simp [save_projects_job, get_config_path, hn]
  simp only [sync_all] at h
  have hw1 : Event.spawn ∉
      (if cfg.debug > 1 then println "Syncing all" w else w).events := by
    split
    · simpa [println] using hw
    · exact hw
  have hsf := sync_all_pre_spawnfree { cfg with use_input := false }
    (if cfg.debug > 1 then println "Syncing all" w else w)
  rcases hpre : sync_all_pre { cfg with use_input := false }
      (if cfg.debug > 1 then println "Syncing all" w else w) with ⟨⟨c3, w3⟩, res⟩
  rw [hpre] at h hsf
  cases res with
  | error e => simp at h
  | ok u =>
    cases u
    simp only [Prod.mk.injEq, and_true] at h
    obtain ⟨hc, hw2⟩ := h
    subst hc
    subst hw2
    obtain ⟨d, hd, hnd⟩ := hsf
    refine ⟨⟨w3.events, rfl, ?_⟩, sync_all_workers_no_io _, hjobs⟩
    rw [hd]
    intro hmem
    rcases List.mem_append.mp hmem with hmem | hmem
    · exact hw1 hmem
    · exact hnd hmem

theorem sync_all_prompts_before_spawn_witness :
    Event.spawn ∉ (World.mk [] [] none []).events ∧
      ((∃ evpre,
          (World.mk [] [] none [Event.spawn]).events =
            evpre ++ [Event.spawn] ++
              sync_all_workers (Config.mk 0 false "/cfg" ⟨none, none, none, none⟩) ∧
          Event.spawn ∉ evpre) ∧
        (∀ e ∈ sync_all_workers (Config.mk 0 false "/cfg" ⟨none, none, none, none⟩),
          (∀ s, e ≠ Event.readLine s) ∧ (∀ c, e ≠ Event.writeConfig c)) ∧
        (∀ c3 : Config,
          (getField .movies_file_path c3.config_data = none →
            ∃ e, movies_sync_job c3 = ([], Except.error e)) ∧
          (getField .sync_save_folder_path c3.config_data = none →
            ∃ e, save_files c3 = ([], Except.error e)) ∧
          (getField .sub_cargo_programs c3.config_data = none →
            ∃ e, sync_programs_cargo c3 = ([], Except.error e)) ∧
          (getField .gh_file_pulls c3.config_data = none →
            ∃ e, save_pulls_job c3 = ([], Except.error e)) ∧
          (getField .gh_file_projects c3.config_data = none →
            ∃ e, save_projects_job c3 = ([], Except.error e)))) :=
  ⟨by decide,
    sync_all_prompts_before_spawn
      (Config.mk 0 true "/cfg" ⟨none, none, none, none⟩)
      (World.mk [] [] none []) (by decide) (by rfl)⟩

/-- C8: the projects output of `save_projects` is the repositories sorted
by name followed by the gists sorted by name: it decomposes as a
name-sorted permutation of the repositories followed by a name-sorted
permutation of the gists. -/
theorem save_projects_output_sorted (repos gists : List GhProject) :
    ∃ r2 g2, save_projects_output repos gists = r2 ++ g2 ∧
      r2.Perm repos ∧ g2.Perm gists ∧
      r2.Pairwise (fun a b => a.name ≤ b.name) ∧
      g2.Pairwise (fun a b => a.name ≤ b.name) := by
  have htrans : ∀ a b c : GhProject,
      (a.name ≤ b.name : Bool) → (b.name ≤ c.name : Bool) → (a.name ≤ c.name : Bool) := by
    intro a b c h1 h2
    simp only [decide_eq_true_eq] at h1 h2 ⊢
    exact le_trans h1 h2
  have htotal : ∀ a b : GhProject,
      ((a.name ≤ b.name : Bool) || (b.name ≤ a.name : Bool)) = true := by
    intro a b
    simpa using le_total a.name b.name
  refine ⟨repos.mergeSort (fun a b => a.name ≤ b.name),
    gists.mergeSort (fun a b => a.name ≤ b.name), rfl,
    List.mergeSort_perm repos _, List.mergeSort_perm gists _, ?_, ?_⟩ <;>
    exact ((List.sorted_mergeSort htrans htotal _).imp (by simp))

/-- C6: serializing any `ConfigData` record (every combination of present
and absent sections) to the TOML text and parsing it back yields an equal
record; consequently `Config::parse_config` applied to the text written by
`Config::save` restores the same configuration data. -/
theorem config_serialization_roundtrip (cd : ConfigData) (p : String) :
    toml_from_str (toml_to_string cd) = .ok cd ∧
      (Config.parse_config (toml_to_string cd) p).config_data = cd := by
  refine ⟨toml_roundtrip cd, ?_⟩
  rw [Config.parse_config, toml_roundtrip cd]

/-- C1 counterexample: on the malformed configuration text `"["` the TOML
parse fails, yet `Config::parse_config` does not return the parse error to
the caller: it returns a `Config` whose data is the substituted
`ConfigData::default()`. -/
theorem parse_config_swallows_parse_error :
    (∃ e, toml_from_str "[" = .error e) ∧
      Config.parse_config "[" "cfg" =
        { debug := 0, use_input := true, config_path := "cfg",
          config_data := default } :=
  ⟨⟨"unterminated table header", rfl⟩, rfl⟩

/-- C1 amended: for every malformed (unparseable) configuration content,
`Config::parse_config` does not propagate the parse error; it warns and
substitutes `ConfigData::default()`, returning a normally-constructed
`Config` to the caller. -/
theorem parse_config_defaults_on_parse_error (s p e : String)
    (h : toml_from_str s = .error e) :
    Config.parse_config s p =
      { debug := 0, use_input := true, config_path := p,
        config_data := default } := by
  rw [Config.parse_config, h]

/-- Witness for the amended C1 at the malformed input `"["`. -/
theorem parse_config_defaults_on_parse_error_witness :
    Config.parse_config "[" "p" =
      { debug := 0, use_input := true, config_path := "p",
        config_data := default } :=
  parse_config_defaults_on_parse_error "[" "p" "unterminated table header" rfl

end N4n5
